import Mathlib

/-!
Verification development for the Tech-radar-express activity feed core
(`backend/core/activity_feed_manager.py`, `backend/core/websocket_manager.py`,
`backend/api/routes/websocket.py`, `backend/database/redis_client.py`).

The Python code is shallowly embedded: `datetime` values are modelled as
natural numbers (microseconds since the epoch, the resolution of Python's
`datetime`); `float` impact scores are modelled as rationals; the Redis
key/value store and its global sorted set are modelled explicitly as
association lists; async methods become pure state-passing functions.
Exception swallowing (`try/except` + logging) is modelled by returning the
unchanged state and a failure flag, exactly where the Python code catches.
-/

namespace TechRadar

/-- `ActivityType` enum of `activity_feed_manager.py`. -/
inductive ActivityType
  | insight_discovered
  | critical_alert
  | custom_alert
  | source_crawled
  | daily_summary
  | focus_mode
  | source_added
  | user_search
  | system_update
  | crawl_started
  | crawl_completed
  | llm_analysis
deriving DecidableEq, Repr

/-- `ActivityPriority` enum of `activity_feed_manager.py`. -/
inductive ActivityPriority
  | low
  | normal
  | high
  | urgent
  | critical
deriving DecidableEq, Repr

/-- `ActivitySource` enum of `activity_feed_manager.py`. -/
inductive ActivitySource
  | system
  | user
  | scheduler
  | mcp
  | llm
  | crawler
deriving DecidableEq, Repr

/-- String value of an `ActivityType`, as in the Python `str` enum. -/
def ActivityType.val : ActivityType → String
  | .insight_discovered => "insight_discovered"
  | .critical_alert => "critical_alert"
  | .custom_alert => "custom_alert"
  | .source_crawled => "source_crawled"
  | .daily_summary => "daily_summary"
  | .focus_mode => "focus_mode"
  | .source_added => "source_added"
  | .user_search => "user_search"
  | .system_update => "system_update"
  | .crawl_started => "crawl_started"
  | .crawl_completed => "crawl_completed"
  | .llm_analysis => "llm_analysis"

/-- String value of an `ActivityPriority`. -/
def ActivityPriority.val : ActivityPriority → String
  | .low => "low"
  | .normal => "normal"
  | .high => "high"
  | .urgent => "urgent"
  | .critical => "critical"

/-- String value of an `ActivitySource`. -/
def ActivitySource.val : ActivitySource → String
  | .system => "system"
  | .user => "user"
  | .scheduler => "scheduler"
  | .mcp => "mcp"
  | .llm => "llm"
  | .crawler => "crawler"

/-- The `ActivityItem` dataclass.  `timestamp` is `datetime.now()` in
microseconds since the epoch; `details` is an opaque structured map modelled
as an association list; `impact_score` is a rational standing for the Python
float. -/
structure ActivityItem where
  id : String
  type : ActivityType
  priority : ActivityPriority
  source : ActivitySource
  title : String
  description : String
  details : List (String × String)
  timestamp : Nat
  user_id : Option String := none
  source_name : Option String := none
  url : Option String := none
  tags : List String := []
  tech_areas : List String := []
  impact_score : ℚ := 0
  read : Bool := false
  bookmarked : Bool := false
deriving DecidableEq, Repr

/-! ## The Redis sorted set (`activity:sorted:global`)

A Redis ZSET holds pairs (member, score) with pairwise-distinct members,
ordered by score ascending with ties broken by the member string in
lexicographic order.  We keep the entry list explicitly in that ascending
order, which is the order Redis maintains internally; `ZREVRANGE` then reads
the list from the back. -/

/-- Lexicographic order on the characters of a string (Redis compares members
as byte strings; on the ASCII ids produced by the feed this coincides with
the character-list order). -/
def strLt (a b : String) : Prop := a.data < b.data

instance (a b : String) : Decidable (strLt a b) := by
  unfold strLt; infer_instance

/-- Strict ZSET ordering on (member, score) pairs: by score, then by member
string, matching Redis tie-breaking. -/
def zkeyLt (a b : String × Nat) : Prop :=
  a.2 < b.2 ∨ (a.2 = b.2 ∧ strLt a.1 b.1)

instance (a b : String × Nat) : Decidable (zkeyLt a b) := by
  unfold zkeyLt; infer_instance

/-- A Redis sorted set: entries kept in ascending `zkeyLt` order. -/
structure ZSet where
  entries : List (String × Nat)
deriving DecidableEq, Repr

/-- Insert a (member, score) pair at its sorted position. -/
def zinsert (m : String) (s : Nat) : List (String × Nat) → List (String × Nat)
  | [] => [(m, s)]
  | e :: rest =>
    if zkeyLt (m, s) e then (m, s) :: e :: rest
    else e :: zinsert m s rest

/-- `ZADD key {member: score}`: any previous entry for the member is
replaced, and the pair is placed at its sorted position. -/
def ZSet.zadd (z : ZSet) (m : String) (s : Nat) : ZSet :=
  ⟨zinsert m s (z.entries.filter (fun e => e.1 ≠ m))⟩

/-- `ZREMRANGEBYRANK key 0 (-(nmax+1))`: removes the entries of rank
`0 .. card-(nmax+1)`, i.e. the `card - nmax` lowest-ranked (oldest) entries,
leaving at most `nmax`.  When `card ≤ nmax` the stop index is negative past
the front and nothing is removed. -/
def ZSet.trimTo (z : ZSet) (nmax : Nat) : ZSet :=
  ⟨z.entries.drop (z.entries.length - nmax)⟩

/-- `ZREVRANGE key start stop` (inclusive stop): members read from the
highest rank downwards. -/
def ZSet.zrevrange (z : ZSet) (start stop : Nat) : List String :=
  (((z.entries.reverse).map Prod.fst).drop start).take (stop + 1 - start)

/-- `ZCARD`. -/
def ZSet.card (z : ZSet) : Nat := z.entries.length

/-! ## Association lists standing for Python dicts / Redis keyspaces

Python dicts preserve insertion order: updating an existing key keeps its
position, a new key is appended at the end. -/

/-- Dict lookup (first — and, for dict-built lists, only — binding of the
key). -/
def alistGet {α : Type} : List (String × α) → String → Option α
  | [], _ => none
  | e :: rest, k => if e.1 == k then some e.2 else alistGet rest k

/-- Dict update: replace the key's binding in place when present, append it
otherwise. -/
def alistSet {α : Type} : List (String × α) → String → α → List (String × α)
  | [], k, v => [(k, v)]
  | e :: rest, k, v =>
    if e.1 == k then (k, v) :: rest else e :: alistSet rest k v

/-- Dict deletion. -/
def alistDel {α : Type} : List (String × α) → String → List (String × α)
  | [], _ => []
  | e :: rest, k =>
    if e.1 == k then alistDel rest k else e :: alistDel rest k

/-! ## The Redis store used by `ActivityFeedManager`

Keys in play: `activity:data:{id}` holds the serialized activity,
`activity:bookmarks:{user}:{id}` holds a bookmark timestamp,
`activity:stats:global` holds running counters, and the sorted set
`activity:sorted:global` holds the global index.  `_serialize_activity` /
`_deserialize_activity` round-trip a dataclass through JSON, so the stored
payload is modelled as the `ActivityItem` itself.  TTLs (`expire=...`) bound
lifetimes in wall-clock time and are outside this state model. -/

/-- The running counters stored under `activity:stats:global` by
`_update_activity_stats`. -/
structure StatsCounters where
  total_count : Nat
  last_activity : Option Nat
  typeCounts : List (String × Nat)
  prioCounts : List (String × Nat)
deriving DecidableEq, Repr

/-- A value stored under a Redis string key. -/
inductive RVal
  | act (a : ActivityItem)
  | stamp (t : Nat)
  | stats (s : StatsCounters)
deriving DecidableEq, Repr

/-- The durable store: string keyspace, the global sorted set, and a
reachability flag.  When `reachable` is false every command raises inside
the client, which the `RedisClient` wrappers catch, turning writes into
no-ops that report failure (`set`/`delete` return `False`, `get` returns
`None`, `exists` returns `False`). -/
structure RedisStore where
  kv : List (String × RVal)
  zset : ZSet
  reachable : Bool
deriving DecidableEq, Repr

/-- `RedisClient.set`: returns `True` on success, `False` (state unchanged)
when the command raised. -/
def redisSet (rs : RedisStore) (k : String) (v : RVal) : Bool × RedisStore :=
  if rs.reachable then (true, { rs with kv := alistSet rs.kv k v })
  else (false, rs)

/-- `RedisClient.get`: `None` both on a missing key and on a raised
command. -/
def redisGet (rs : RedisStore) (k : String) : Option RVal :=
  if rs.reachable then alistGet rs.kv k else none

/-- `RedisClient.delete`: reports whether a key was removed; `False` with
the state unchanged when the command raised. -/
def redisDelete (rs : RedisStore) (k : String) : Bool × RedisStore :=
  if rs.reachable then
    ((alistGet rs.kv k).isSome, { rs with kv := alistDel rs.kv k })
  else (false, rs)

/-- `RedisClient.exists`. -/
def redisExists (rs : RedisStore) (k : String) : Bool :=
  rs.reachable && (alistGet rs.kv k).isSome

/-- `self.max_activities` (in-memory cap). -/
def maxActivities : Nat := 1000

/-- `self.max_activities_redis` (sorted-index cap `N_max`). -/
def maxActivitiesRedis : Nat := 5000

/-- The score `int(activity.timestamp.timestamp() * 1000)` used by
`_add_to_sorted_list`: the timestamp truncated to milliseconds. -/
def ActivityItem.score (a : ActivityItem) : Nat := a.timestamp / 1000

/-- The pure effect of `_add_to_sorted_list` on the sorted set:
`ZADD` with the millisecond score, then `ZREMRANGEBYRANK 0 -(N_max+1)`. -/
def ZSet.addActivity (z : ZSet) (a : ActivityItem) : ZSet :=
  (z.zadd a.id a.score).trimTo maxActivitiesRedis

/-- `_add_to_sorted_list`: its own `try/except` swallows the failure when the
store is unreachable, leaving the state unchanged. -/
def addToSortedList (rs : RedisStore) (a : ActivityItem) : RedisStore :=
  if rs.reachable then { rs with zset := rs.zset.addActivity a } else rs

/-- `_save_activity_to_redis`: writes the payload (ignoring the returned
success flag) then inserts into the sorted index; all failures are caught
and only logged. -/
def saveActivityToRedis (rs : RedisStore) (a : ActivityItem) : RedisStore :=
  let rs1 := (redisSet rs ("activity:data:" ++ a.id) (.act a)).2
  addToSortedList rs1 a

/-- Bump one counter key in a stats dict (`current_stats.get(key, 0) + 1`). -/
def bumpCount (l : List (String × Nat)) (k : String) : List (String × Nat) :=
  alistSet l k (((alistGet l k).getD 0) + 1)

/-- `_update_activity_stats`: read-modify-write of `activity:stats:global`;
`get` degrades to the empty dict and a failing `set` is swallowed. -/
def updateActivityStats (rs : RedisStore) (a : ActivityItem) : RedisStore :=
  let cur := match redisGet rs "activity:stats:global" with
    | some (.stats s) => s
    | _ => ⟨0, none, [], []⟩
  let upd : StatsCounters :=
    { total_count := cur.total_count + 1
      last_activity := some a.timestamp
      typeCounts := bumpCount cur.typeCounts ("type_" ++ a.type.val)
      prioCounts := bumpCount cur.prioCounts ("priority_" ++ a.priority.val) }
  (redisSet rs "activity:stats:global" (.stats upd)).2

/-! ## `ActivityFeedManager` state and operations -/

/-- The mutable fields of `ActivityFeedManager` relevant to the feed claims:
the in-memory mirror, the id-keyed cache, and the Redis handle.  The
`websocket_manager` side channel used by `_broadcast_activity` is modelled
separately (`WSManager` / `ConnManager` below); `_broadcast_activity`
swallows every error and never touches this state. -/
structure FeedState where
  recent_activities : List ActivityItem
  activity_cache : List (String × ActivityItem)
  redis : RedisStore
deriving DecidableEq, Repr

/-- The error taxonomy of the spec that could surface from ingestion.
`add_activity` has a `try/except ...: raise` around its body, so an error
value would mean a raised exception reaching the producer. -/
inductive FeedError
  | storeUnavailable
deriving DecidableEq, Repr

/-- The keyword arguments of `add_activity`. -/
structure AddParams where
  activity_type : ActivityType
  title : String
  description : String
  details : List (String × String) := []
  priority : ActivityPriority := .normal
  source : ActivitySource := .system
  user_id : Option String := none
  source_name : Option String := none
  url : Option String := none
  tags : List String := []
  tech_areas : List String := []
  impact_score : ℚ := 0
deriving DecidableEq, Repr

/-- The `ActivityItem(...)` constructed at the top of `add_activity`;
`newId` stands for `f"activity_{int(time.time()*1000)}_{uuid4...}"` and
`now` for `datetime.now()` in microseconds. -/
def mkActivity (p : AddParams) (newId : String) (now : Nat) : ActivityItem :=
  { id := newId
    type := p.activity_type
    priority := p.priority
    source := p.source
    title := p.title
    description := p.description
    details := p.details
    timestamp := now
    user_id := p.user_id
    source_name := p.source_name
    url := p.url
    tags := p.tags
    tech_areas := p.tech_areas
    impact_score := p.impact_score }

/-- `add_activity`: build the item, put it at the front of the in-memory
mirror and into the cache, cap the mirror at `max_activities`, persist
(errors swallowed inside `_save_activity_to_redis`), update the stats
counters, and return the new id.  The WebSocket fan-out step is a separate
component with its own swallowed errors and no effect on this state.  No
branch of the body raises when the store is unreachable, so the result is
always `.ok`. -/
def addActivity (st : FeedState) (p : AddParams) (newId : String) (now : Nat) :
    Except FeedError (String × FeedState) :=
  let a := mkActivity p newId now
  let recent := a :: st.recent_activities
  let cache := alistSet st.activity_cache a.id a
  let trimmed :=
    if recent.length > maxActivities then
      match recent.getLast? with
      | some removed => (recent.dropLast, alistDel cache removed.id)
      | none => (recent, cache)
    else (recent, cache)
  let rs1 := saveActivityToRedis st.redis a
  let rs2 := updateActivityStats rs1 a
  .ok (a.id, { recent_activities := trimmed.1, activity_cache := trimmed.2, redis := rs2 })

/-- `get_activity_by_id`: memory cache first, then the payload key in Redis
(deserialization round-trips). -/
def getActivityById (st : FeedState) (activity_id : String) : Option ActivityItem :=
  match alistGet st.activity_cache activity_id with
  | some a => some a
  | none =>
    match redisGet st.redis ("activity:data:" ++ activity_id) with
    | some (.act a) => some a
    | _ => none

/-- `mark_activity_read(activity_id, user_id)`: looks the activity up, sets
`read = True` on the shared record, stores it back in the cache and in
Redis.  The `user_id` parameter is accepted and never used.  (In Python the
cached object and the `recent_activities` entry alias the same mutable
dataclass; reads in the claims go through `get_activity_by_id`, which
consults the cache first.) -/
def markActivityRead (st : FeedState) (activity_id : String)
    (user_id : String := "default") : Bool × FeedState :=
  match getActivityById st activity_id with
  | none => (false, st)
  | some a =>
    let a' := { a with read := true }
    (true, { st with
      activity_cache := alistSet st.activity_cache activity_id a'
      redis := saveActivityToRedis st.redis a' })

/-- The bookmark key `f"activity:bookmarks:{user_id}:{activity_id}"`. -/
def bookmarkKey (user_id activity_id : String) : String :=
  "activity:bookmarks:" ++ user_id ++ ":" ++ activity_id

/-- `bookmark_activity(activity_id, user_id)`: toggles the per-user bookmark
key — delete it if it exists, otherwise create it (value: the activity's
timestamp) — and mirrors the new state on the cached record. -/
def bookmarkActivity (st : FeedState) (activity_id : String)
    (user_id : String := "default") : Bool × FeedState :=
  match getActivityById st activity_id with
  | none => (false, st)
  | some a =>
    let key := bookmarkKey user_id activity_id
    if redisExists st.redis key then
      let a' := { a with bookmarked := false }
      (true, { st with
        activity_cache := alistSet st.activity_cache activity_id a'
        redis := (redisDelete st.redis key).2 })
    else
      let a' := { a with bookmarked := true }
      (true, { st with
        activity_cache := alistSet st.activity_cache activity_id a'
        redis := (redisSet st.redis key (.stamp a.timestamp)).2 })

/-- Whether user `user_id` currently has activity `activity_id` bookmarked:
existence of the per-user bookmark key (this is what
`_get_user_bookmarked_ids` scans for). -/
def bookmarkState (st : FeedState) (user_id activity_id : String) : Bool :=
  (alistGet st.redis.kv (bookmarkKey user_id activity_id)).isSome

/-! ## `_filter_activities`

Optional filter arguments default to `None` in Python and are guarded with
truthiness tests (`if activity_types:` ...), under which `None` and the
empty list both disable a dimension, and the empty string disables the
user dimension.  `datetime` values are always truthy, so `since` is guarded
by presence alone. -/

/-- Python truthiness of an optional list argument. -/
def pyTruthyList {α : Type} : Option (List α) → Bool
  | none => false
  | some xs => !xs.isEmpty

/-- Python truthiness of an optional string argument. -/
def pyTruthyStr : Option String → Bool
  | none => false
  | some s => !(s == "")

/-- `_filter_activities`: the successive list comprehensions, in source
order (since, types, priorities, sources, user, tech areas, system). -/
def filterActivities (activities : List ActivityItem)
    (activity_types : Option (List ActivityType) := none)
    (priorities : Option (List ActivityPriority) := none)
    (sources : Option (List ActivitySource) := none)
    (user_id : Option String := none)
    (tech_areas : Option (List String) := none)
    (since : Option Nat := none)
    (include_system : Bool := true) : List ActivityItem :=
  let f := activities
  let f := match since with
    | some s => f.filter (fun a => decide (s ≤ a.timestamp))
    | none => f
  let f := if pyTruthyList activity_types then
      f.filter (fun a => decide (a.type ∈ activity_types.getD [])) else f
  let f := if pyTruthyList priorities then
      f.filter (fun a => decide (a.priority ∈ priorities.getD [])) else f
  let f := if pyTruthyList sources then
      f.filter (fun a => decide (a.source ∈ sources.getD [])) else f
  let f := if pyTruthyStr user_id then
      f.filter (fun a => decide (a.user_id = user_id ∨ a.user_id = none)) else f
  let f := if pyTruthyList tech_areas then
      f.filter (fun a => (tech_areas.getD []).any (fun ar => decide (ar ∈ a.tech_areas)))
    else f
  let f := if !include_system then
      f.filter (fun a => decide (a.source ≠ ActivitySource.system)) else f
  f

/-! ## `get_activity_stats`

The stats are computed from the window of activities returned by
`get_activities(limit=max_activities, since=..., include_system=True)`; we
embed the computation on that window directly.  `now` is
`datetime.now()` in microseconds (realistic clocks are far beyond 24h after
the epoch, so the `Nat` subtraction below never truncates in scope). -/

/-- The `ActivityStats` dataclass. -/
structure ActivityStats where
  total_activities : Nat
  activities_24h : Nat
  activities_by_type : List (String × Nat)
  activities_by_priority : List (String × Nat)
  avg_impact_score : ℚ
  most_active_source : String
  last_activity : Option Nat
deriving DecidableEq, Repr

/-- The counting loops (`counts[key] = counts.get(key, 0) + 1`). -/
def countBy (l : List ActivityItem) (keyf : ActivityItem → String) :
    List (String × Nat) :=
  l.foldl (fun acc a => bumpCount acc (keyf a)) []

/-- `max(counts.items(), key=lambda x: x[1])[0]`: Python `max` keeps the
first item attaining the maximum. -/
def maxByCount : List (String × Nat) → String
  | [] => ""
  | x :: xs => (xs.foldl (fun best e => if e.2 > best.2 then e else best) x).1

/-- The body of `get_activity_stats` applied to the fetched window. -/
def activityStats (activities : List ActivityItem) (now : Nat) : ActivityStats :=
  if activities.isEmpty then
    { total_activities := 0, activities_24h := 0, activities_by_type := []
      activities_by_priority := [], avg_impact_score := 0
      most_active_source := "", last_activity := none }
  else
    let last_24h := now - 24 * 3600 * 1000000
    let activities_24h := (activities.filter (fun a => decide (last_24h < a.timestamp))).length
    let types_count := countBy activities (fun a => a.type.val)
    let priorities_count := countBy activities (fun a => a.priority.val)
    let sources_count := countBy activities (fun a => a.source.val)
    let most_active_source := if sources_count.isEmpty then "" else maxByCount sources_count
    let impact_scores :=
      (activities.filter (fun a => decide ((0 : ℚ) < a.impact_score))).map (·.impact_score)
    let avg_impact_score :=
      if impact_scores.isEmpty then (0 : ℚ)
      else impact_scores.sum / (impact_scores.length : ℚ)
    { total_activities := activities.length
      activities_24h := activities_24h
      activities_by_type := types_count
      activities_by_priority := priorities_count
      avg_impact_score := avg_impact_score
      most_active_source := most_active_source
      last_activity := (activities.head?).map (·.timestamp) }

/-! ## `WebSocketManager` (`core/websocket_manager.py`)

Fan-out over topic subscriptions.  The transport (`websocket.send_text`) is
modelled by a predicate `sendOk : connection_id → Bool`: `false` means the
coroutine raises.  `broadcast_to_topic` snapshots the topic's member set
(`list(self.subscriptions[topic])`) before the loop; Python iterates a set
in an unspecified order, modelled by the snapshot list's order.  Deliveries
are observed through a log of `(connection_id, success)` pairs, one per
attempted `_send_to_connection`. -/

/-- The `WebSocketConnection` bookkeeping record (transport and clock fields
are not part of the membership state). -/
structure WSConnection where
  connection_id : String
  user_id : Option String := none
  subscriptions : List String := []
deriving DecidableEq, Repr

/-- `WebSocketManager` state: `connections` (dict keyed by id, in insertion
order), `user_connections`, and the topic membership map `subscriptions`. -/
structure WSManager where
  connections : List WSConnection
  user_connections : List (String × List String)
  subscriptions : List (String × List String)
deriving DecidableEq, Repr

/-- Lookup in `self.connections`. -/
def WSManager.findConn (st : WSManager) (cid : String) : Option WSConnection :=
  st.connections.find? (fun c => c.connection_id == cid)

/-- The connection ids currently registered. -/
def WSManager.connIds (st : WSManager) : List String :=
  st.connections.map (·.connection_id)

/-- `WebSocketManager.disconnect`: no-op on an unknown id; otherwise remove
the id from each topic the connection subscribed to (dropping topics that
become empty), from its user's connection set (dropping the user when
empty), and from `self.connections`. -/
def WSManager.disconnect (st : WSManager) (cid : String) : WSManager :=
  match st.findConn cid with
  | none => st
  | some c =>
    let subs := c.subscriptions.foldl (fun acc topic =>
      match alistGet acc topic with
      | some ms =>
        let ms' := ms.filter (fun m => m ≠ cid)
        if ms'.isEmpty then alistDel acc topic else alistSet acc topic ms'
      | none => acc) st.subscriptions
    let ucs := match c.user_id with
      | some u =>
        match alistGet st.user_connections u with
        | some ids =>
          let ids' := ids.filter (fun m => m ≠ cid)
          if ids'.isEmpty then alistDel st.user_connections u
          else alistSet st.user_connections u ids'
        | none => st.user_connections
      | none => st.user_connections
    { connections := st.connections.filter (fun c' => c'.connection_id ≠ cid)
      user_connections := ucs
      subscriptions := subs }

/-- `_send_to_connection`: `False` for an unknown id; otherwise try
`send_text` — on an exception, log, `disconnect` the connection and return
`False`; return `True` on success. -/
def sendToConnection (sendOk : String → Bool) (st : WSManager) (cid : String) :
    Bool × WSManager :=
  if (st.findConn cid).isNone then (false, st)
  else if sendOk cid then (true, st)
  else (false, st.disconnect cid)

/-- `broadcast_to_topic`: `0` when the topic has no entry; otherwise iterate
over the snapshot of members, attempting each send in turn and counting
successes.  Returns `(sent_count, final state, attempt log)`. -/
def broadcastToTopic (sendOk : String → Bool) (st : WSManager) (topic : String) :
    Nat × WSManager × List (String × Bool) :=
  match alistGet st.subscriptions topic with
  | none => (0, st, [])
  | some members =>
    members.foldl (fun acc cid =>
      let r := sendToConnection sendOk acc.2.1 cid
      (acc.1 + (if r.1 then 1 else 0), r.2, acc.2.2 ++ [(cid, r.1)]))
      (0, st, [])

/-! ## `ConnectionManager` (`api/routes/websocket.py`)

Group-based broadcast with history replay on connect.  `send_personal_message`
disconnects the target on a failed send, and `disconnect` broadcasts a
goodbye notification to the `admin` group, so the three operations are
mutually recursive in the source; the embedding bounds that recursion with
explicit fuel (every scenario in the claims stays far below the bound, and
each Python frame consumes one unit only on the failure path).  Deliveries
are observed as a log of `(connection_id, message as sent)` pairs. -/

/-- `NotificationType` enum. -/
inductive NotificationType
  | new_insight
  | kpi_update
  | trending_theme
  | source_update
  | system_status
  | user_action
deriving DecidableEq, Repr

/-- `WebSocketMessage` (pydantic model).  `data` is an opaque structured
payload; `id` stands for the generated uuid4. -/
structure WSMessage where
  id : String
  type : NotificationType
  data : List (String × String)
  timestamp : Nat := 0
  priority : String := "normal"
  badge_text : Option String := none
  auto_dismiss : Option Nat := none
deriving DecidableEq, Repr

/-- `self.max_history`. -/
def maxHistory : Nat := 50

/-- `ConnectionManager` state: active connection ids (dict keyed by id),
the group membership map, and the shared recent-message history.
Per-connection metadata only feeds logging and counters. -/
structure ConnManager where
  active_connections : List String
  connection_groups : List (String × List String)
  recent_messages : List WSMessage
deriving DecidableEq, Repr

/-- `_add_to_history`: append then keep the last `max_history` messages. -/
def addToHistory (l : List WSMessage) (m : WSMessage) : List WSMessage :=
  let l' := l ++ [m]
  if l'.length > maxHistory then l'.drop (l'.length - maxHistory) else l'

/-- The copy taken by `_send_history_to_connection`: the badge and
auto-dismiss are cleared so replayed messages are flagged historical. -/
def stripHistorical (m : WSMessage) : WSMessage :=
  { m with badge_text := none, auto_dismiss := none }

/-- The `user_disconnected` notification built inside `disconnect` (its
generated uuid is irrelevant to every claim and fixed to `""`). -/
def goodbyeMsg (cid : String) : WSMessage :=
  { id := "", type := .system_status
    data := [("status", "user_disconnected"), ("connection_id", cid)]
    priority := "low", auto_dismiss := some 2 }

/-- The `user_connected` notification built inside `connect` (uuid fixed to
`""` as above). -/
def welcomeMsg (cid : String) : WSMessage :=
  { id := "", type := .system_status
    data := [("status", "user_connected"), ("connection_id", cid)]
    badge_text := some "NEW USER", auto_dismiss := some 3 }

mutual

/-- `ConnectionManager.disconnect`: discard the id from every group, drop
the connection, and — when connections remain — broadcast a goodbye to the
`admin` group. -/
def cmDisconnect (sendOk : String → Bool) :
    Nat → ConnManager → String → ConnManager × List (String × WSMessage)
  | 0, st, _ => (st, [])
  | fuel + 1, st, cid =>
    let st1 : ConnManager :=
      { active_connections := st.active_connections.filter (fun c => c ≠ cid)
        connection_groups :=
          st.connection_groups.map (fun g => (g.1, g.2.filter (fun c => c ≠ cid)))
        recent_messages := st.recent_messages }
    if st1.active_connections.length > 0 then
      cmBroadcastGroup sendOk fuel st1 "admin" (goodbyeMsg cid) []
    else (st1, [])

/-- `send_personal_message`: nothing happens for an unknown id; a send on a
live transport logs one delivery; a closed transport or a raised send
disconnects the target. -/
def cmSendPersonal (sendOk : String → Bool) :
    Nat → ConnManager → WSMessage → String → ConnManager × List (String × WSMessage)
  | 0, st, _, _ => (st, [])
  | fuel + 1, st, m, cid =>
    if st.active_connections.contains cid then
      if sendOk cid then (st, [(cid, m)])
      else cmDisconnect sendOk fuel st cid
    else (st, [])

/-- `broadcast_to_group`: unknown group → warn and return; empty member set
after exclusions → return (the message is *not* recorded); otherwise record
the message in the history and send it to every remaining member.  The
`asyncio.gather` dispatch is modelled by sequential composition over the
member snapshot. -/
def cmBroadcastGroup (sendOk : String → Bool) :
    Nat → ConnManager → String → WSMessage → List String →
    ConnManager × List (String × WSMessage)
  | 0, st, _, _, _ => (st, [])
  | fuel + 1, st, g, m, exclude =>
    match alistGet st.connection_groups g with
    | none => (st, [])
    | some members =>
      let notify := members.filter (fun c => !exclude.contains c)
      if notify.isEmpty then (st, [])
      else
        let st1 : ConnManager := { st with recent_messages := addToHistory st.recent_messages m }
        notify.foldl (fun acc cid =>
          let r := cmSendPersonal sendOk fuel acc.1 m cid
          (r.1, acc.2 ++ r.2)) (st1, ([] : List (String × WSMessage)))

end

/-- `_send_history_to_connection`: replay the last 10 recorded messages, in
order, each with badge and auto-dismiss cleared. -/
def cmSendHistory (sendOk : String → Bool) (fuel : Nat) (st : ConnManager)
    (cid : String) : ConnManager × List (String × WSMessage) :=
  if st.recent_messages.isEmpty then (st, [])
  else
    let recent_history := st.recent_messages.drop (st.recent_messages.length - 10)
    recent_history.foldl (fun acc m =>
      let r := cmSendPersonal sendOk fuel acc.1 (stripHistorical m) cid
      (r.1, acc.2 ++ r.2)) (st, ([] : List (String × WSMessage)))

/-- `ConnectionManager.connect`: register the connection, add it to each
requested group (default `["global"]`, creating missing groups), replay the
recent history to it, then notify the `admin` group (excluding the new
connection). -/
def cmConnect (sendOk : String → Bool) (fuel : Nat) (st : ConnManager)
    (cid : String) (groups : List String) : ConnManager × List (String × WSMessage) :=
  let st1 : ConnManager :=
    { st with active_connections :=
        if st.active_connections.contains cid then st.active_connections
        else st.active_connections ++ [cid] }
  let gs := if groups.isEmpty then ["global"] else groups
  let st2 := gs.foldl (fun s g =>
    let cur := (alistGet s.connection_groups g).getD []
    { s with connection_groups :=
        alistSet s.connection_groups g (if cur.contains cid then cur else cur ++ [cid]) }) st1
  let h := cmSendHistory sendOk fuel st2 cid
  let w := cmBroadcastGroup sendOk fuel h.1 "admin" (welcomeMsg cid) [cid]
  (w.1, h.2 ++ w.2)

/-- The deliveries of a log that reached connection `cid`, in order. -/
def deliveriesTo (log : List (String × WSMessage)) (cid : String) : List WSMessage :=
  (log.filter (fun e => e.1 == cid)).map (·.2)

/-- The groups the `/ws/dashboard` endpoint joins on connect
(`websocket_dashboard`): every feed subscriber is a member of both
`dashboard` and `notifications`. -/
def dashboardGroups : List String := ["dashboard", "notifications", "global"]

/-- The `ConnectionManager` leg of `_broadcast_activity`: one appended
activity is broadcast as the same message first to the `dashboard` group and
then to the `notifications` group.  (The `WebSocketManager` leg targets that
manager's own topic registry, disjoint from these connections.) -/
def broadcastActivityCM (sendOk : String → Bool) (fuel : Nat) (st : ConnManager)
    (m : WSMessage) : ConnManager × List (String × WSMessage) :=
  let r1 := cmBroadcastGroup sendOk fuel st "dashboard" m []
  let r2 := cmBroadcastGroup sendOk fuel r1.1 "notifications" m []
  (r2.1, r1.2 ++ r2.2)

/-! ## Derived observations and claim-side predicates -/

/-- The global sorted index produced by a sequence of appends: each append
runs `_add_to_sorted_list` on a reachable store, starting from an empty
index. -/
def feedIndex (as : List ActivityItem) : ZSet :=
  as.foldl ZSet.addActivity ⟨[]⟩

/-- The `created_at` of the appended event carrying a given id (`0` for an
unknown id). -/
def createdOf (as : List ActivityItem) (i : String) : Nat :=
  ((as.find? (fun a => a.id == i)).map (·.timestamp)).getD 0

/-- The ordering asserted by the spec for `range(0, N)`: ids listed in
non-increasing `(created_at, id)` lexicographic order, id breaking ties on
equal `created_at`. -/
def specCreatedIdOrder (as : List ActivityItem) (ids : List String) : Prop :=
  ids.Pairwise (fun i j =>
    createdOf as j < createdOf as i ∨
    (createdOf as j = createdOf as i ∧ (strLt j i ∨ j = i)))

instance (as : List ActivityItem) (ids : List String) :
    Decidable (specCreatedIdOrder as ids) := by
  unfold specCreatedIdOrder; infer_instance

/-- The read flag a user observes for an event.  Every reader is served from
the same shared record via `get_activity_by_id` / `get_activities`; the
`user` argument records which observer is asking (the code gives it no
influence). -/
def observedRead (st : FeedState) (user : String) (activity_id : String) :
    Option Bool :=
  (getActivityById st activity_id).map (·.read)

/-! ## Concrete fixtures for witnesses and counterexamples -/

/-- A minimal activity record. -/
def sampleActivity (i : String) (ts : Nat) : ActivityItem :=
  { id := i, type := .system_update, priority := .normal, source := .system
    title := "t", description := "d", details := [], timestamp := ts }

/-- Two appends created inside the same millisecond: `created_at` 5 µs and
7 µs both truncate to score 0, while the ids order the later event first
under `ZREVRANGE`. -/
def cexActB : ActivityItem := sampleActivity "activity_0_bb" 5

/-- See `cexActB`. -/
def cexActA : ActivityItem := sampleActivity "activity_0_aa" 7

/-- The C3 append sequence (appended in `created_at` order). -/
def cexAppends : List ActivityItem := [cexActB, cexActA]

/-- An unreachable durable store. -/
def storeDown : RedisStore := { kv := [], zset := ⟨[]⟩, reachable := false }

/-- Feed state over the unreachable store. -/
def feedStateDown : FeedState :=
  { recent_activities := [], activity_cache := [], redis := storeDown }

/-- A producer call. -/
def demoParams : AddParams :=
  { activity_type := .system_update, title := "t", description := "d" }

/-- A reachable store holding event `e1` (unread, unbookmarked). -/
def feedState1 : FeedState :=
  { recent_activities := [sampleActivity "e1" 1000]
    activity_cache := [("e1", sampleActivity "e1" 1000)]
    redis := { kv := [("activity:data:e1", .act (sampleActivity "e1" 1000))]
               zset := ⟨[("e1", 1)]⟩, reachable := true } }

/-- A three-member topic registry for the broadcast-isolation scenario. -/
def wsFixture : WSManager :=
  { connections := [⟨"c1", none, ["t"]⟩, ⟨"c2", none, ["t"]⟩, ⟨"c3", none, ["t"]⟩]
    user_connections := []
    subscriptions := [("t", ["c1", "c2", "c3"])] }

/-- A live message fixture (`badge_text` set, as `_broadcast_activity`
emits). -/
def liveMsg (n : Nat) : WSMessage :=
  { id := "m" ++ toString n, type := .user_action, data := []
    badge_text := some "NEW" }

/-- A `ConnectionManager` with events `e1..e5` in the history, no active
connection yet, and the four default groups. -/
def cmFixture : ConnManager :=
  { active_connections := []
    connection_groups :=
      [("dashboard", []), ("notifications", []), ("admin", []), ("global", [])]
    recent_messages := [liveMsg 1, liveMsg 2, liveMsg 3, liveMsg 4, liveMsg 5] }

/-- Window fixture for the stats claims: one positive score, one zero. -/
def statsWindow : List ActivityItem :=
  [{ sampleActivity "s1" 5000 with impact_score := 1 },
   sampleActivity "s2" 4000]

/-- Fixture for the user filter: one system event without owner, one event
owned by another user, one owned by the caller. -/
def usersWindow : List ActivityItem :=
  [sampleActivity "n1" 3000,
   { sampleActivity "n2" 2000 with user_id := some "u2" },
   { sampleActivity "n3" 1000 with user_id := some "u1" }]

/-! # Theorems

General-purpose lemmas about the orderings and the dict model, then the
machinery for the sorted index, then one theorem per claim. -/

theorem strLt_trans {a b c : String} (h1 : strLt a b) (h2 : strLt b c) :
    strLt a c := lt_trans h1 h2

theorem strLt_or_eq_or_gt (a b : String) : strLt a b ∨ a = b ∨ strLt b a := by
  rcases lt_trichotomy a.data b.data with h | h | h
  · exact Or.inl h
  · exact Or.inr (Or.inl (String.ext h))
  · exact Or.inr (Or.inr h)

theorem zkeyLt_trans {a b c : String × Nat} (h1 : zkeyLt a b)
    (h2 : zkeyLt b c) : zkeyLt a c := by
  rcases h1 with h1 | ⟨e1, m1⟩ <;> rcases h2 with h2 | ⟨e2, m2⟩
  · exact Or.inl (lt_trans h1 h2)
  · exact Or.inl (e2 ▸ h1)
  · exact Or.inl (e1 ▸ h2)
  · exact Or.inr ⟨e1.trans e2, strLt_trans m1 m2⟩

/-- `zkeyLt` is total up to equality of pairs. -/
theorem zkeyLt_total (a b : String × Nat) : zkeyLt a b ∨ a = b ∨ zkeyLt b a := by
  rcases lt_trichotomy a.2 b.2 with h | h | h
  · exact Or.inl (Or.inl h)
  · rcases strLt_or_eq_or_gt a.1 b.1 with hm | hm | hm
    · exact Or.inl (Or.inr ⟨h, hm⟩)
    · exact Or.inr (Or.inl (Prod.ext hm h))
    · exact Or.inr (Or.inr (Or.inr ⟨h.symm, hm⟩))
  · exact Or.inr (Or.inr (Or.inl h))

theorem alistGet_set_self {α : Type} (l : List (String × α)) (k : String)
    (v : α) : alistGet (alistSet l k v) k = some v := by
  induction l with
  | nil => simp [alistGet, alistSet]
  | cons e rest ih =>
    by_cases h : e.1 = k
    · simp [alistGet, alistSet, h]
    · simpa [alistGet, alistSet, h] using ih

theorem alistGet_set_ne {α : Type} (l : List (String × α)) (k k' : String)
    (v : α) (h : k' ≠ k) : alistGet (alistSet l k v) k' = alistGet l k' := by
  induction l with
  | nil => simp [alistGet, alistSet, Ne.symm h]
  | cons e rest ih =>
    by_cases he : e.1 = k
    · simp [alistGet, alistSet, he, Ne.symm h]
    · by_cases he' : e.1 = k'
      · simp [alistGet, alistSet, he, he', h]
      · simpa [alistGet, alistSet, he, he'] using ih

theorem alistGet_del_self {α : Type} (l : List (String × α)) (k : String) :
    alistGet (alistDel l k) k = none := by
  induction l with
  | nil => simp [alistGet, alistDel]
  | cons e rest ih =>
    by_cases h : e.1 = k
    · simpa [alistDel, h] using ih
    · simpa [alistDel, alistGet, h] using ih

theorem alistGet_del_ne {α : Type} (l : List (String × α)) (k k' : String)
    (h : k' ≠ k) : alistGet (alistDel l k) k' = alistGet l k' := by
  induction l with
  | nil => simp [alistGet, alistDel]
  | cons e rest ih =>
    by_cases he : e.1 = k
    · simpa [alistDel, alistGet, he, Ne.symm h] using ih
    · by_cases he' : e.1 = k'
      · simp [alistDel, alistGet, he, he', h]
      · simpa [alistDel, alistGet, he, he'] using ih

/-! ## Sorted-index machinery -/

theorem mem_zinsert {m : String} {s : Nat} {l : List (String × Nat)}
    {x : String × Nat} (hx : x ∈ zinsert m s l) : x = (m, s) ∨ x ∈ l := by
  induction l with
  | nil => simpa [zinsert] using hx
  | cons e rest ih =>
    unfold zinsert at hx
    by_cases hlt : zkeyLt (m, s) e
    · rw [if_pos hlt] at hx
      rcases List.mem_cons.mp hx with h | h
      · exact Or.inl h
      · exact Or.inr h
    · rw [if_neg hlt] at hx
      rcases List.mem_cons.mp hx with h | h
      · exact Or.inr (h ▸ List.mem_cons_self e rest)
      · rcases ih h with h' | h'
        · exact Or.inl h'
        · exact Or.inr (List.mem_cons_of_mem e h')

/-- Inserting a fresh member at its sorted position preserves strict
sortedness. -/
theorem pairwise_zinsert {m : String} {s : Nat} {l : List (String × Nat)}
    (hl : l.Pairwise zkeyLt) (hm : ∀ x ∈ l, x.1 ≠ m) :
    (zinsert m s l).Pairwise zkeyLt := by
  induction l with
  | nil => simp [zinsert]
  | cons e rest ih =>
    rcases List.pairwise_cons.mp hl with ⟨he, hrest⟩
    unfold zinsert
    by_cases hlt : zkeyLt (m, s) e
    · rw [if_pos hlt]
      refine List.pairwise_cons.mpr ⟨?_, hl⟩
      intro y hy
      rcases List.mem_cons.mp hy with rfl | hy'
      · exact hlt
      · exact zkeyLt_trans hlt (he y hy')
    · rw [if_neg hlt]
      refine List.pairwise_cons.mpr
        ⟨?_, ih hrest (fun x hx => hm x (List.mem_cons_of_mem e hx))⟩
      intro y hy
      rcases mem_zinsert hy with rfl | hy'
      · rcases zkeyLt_total e (m, s) with h | h | h
        · exact h
        · have h1 := hm e (List.mem_cons_self e rest)
          rw [h] at h1
          exact absurd rfl h1
        · exact absurd h hlt
      · exact he y hy'

theorem mem_zadd {z : ZSet} {m : String} {s : Nat} {x : String × Nat}
    (hx : x ∈ (z.zadd m s).entries) : x = (m, s) ∨ x ∈ z.entries := by
  rcases mem_zinsert hx with h | h
  · exact Or.inl h
  · exact Or.inr (List.mem_of_mem_filter h)

theorem pairwise_zadd {z : ZSet} (hz : z.entries.Pairwise zkeyLt)
    (m : String) (s : Nat) : (z.zadd m s).entries.Pairwise zkeyLt := by
  refine pairwise_zinsert (hz.filter _) ?_
  intro x hx
  have := List.of_mem_filter hx
  simpa using this

theorem mem_trimTo {z : ZSet} {n : Nat} {x : String × Nat}
    (hx : x ∈ (z.trimTo n).entries) : x ∈ z.entries :=
  List.mem_of_mem_drop hx

theorem pairwise_trimTo {z : ZSet} (hz : z.entries.Pairwise zkeyLt)
    (n : Nat) : (z.trimTo n).entries.Pairwise zkeyLt :=
  hz.sublist (List.drop_sublist _ _)

theorem pairwise_addActivity {z : ZSet} (hz : z.entries.Pairwise zkeyLt)
    (a : ActivityItem) : (z.addActivity a).entries.Pairwise zkeyLt :=
  pairwise_trimTo (pairwise_zadd hz a.id a.score) _

theorem mem_addActivity {z : ZSet} {a : ActivityItem} {x : String × Nat}
    (hx : x ∈ (z.addActivity a).entries) :
    x = (a.id, a.score) ∨ x ∈ z.entries :=
  mem_zadd (mem_trimTo hx)

theorem pairwise_foldl_addActivity :
    ∀ (as : List ActivityItem) (z : ZSet), z.entries.Pairwise zkeyLt →
      (as.foldl ZSet.addActivity z).entries.Pairwise zkeyLt := by
  intro as
  induction as with
  | nil => intro z hz; exact hz
  | cons a rest ih =>
    intro z hz
    rw [List.foldl_cons]
    exact ih (z.addActivity a) (pairwise_addActivity hz a)

theorem mem_foldl_addActivity :
    ∀ (as : List ActivityItem) (z : ZSet) (x : String × Nat),
      x ∈ (as.foldl ZSet.addActivity z).entries →
      x ∈ z.entries ∨ ∃ a ∈ as, x.1 = a.id ∧ x.2 = a.score := by
  intro as
  induction as with
  | nil => intro z x hx; exact Or.inl hx
  | cons a rest ih =>
    intro z x hx
    rw [List.foldl_cons] at hx
    rcases ih (z.addActivity a) x hx with hx' | ⟨b, hb, h1, h2⟩
    · rcases mem_addActivity hx' with rfl | hz
      · exact Or.inr ⟨a, List.mem_cons_self a rest, rfl, rfl⟩
      · exact Or.inl hz
    · exact Or.inr ⟨b, List.mem_cons_of_mem a hb, h1, h2⟩

/-- Invariant of the fold building the feed index: strict sortedness plus
the origin of every entry. -/
theorem feedIndex_invariant (as : List ActivityItem) :
    (feedIndex as).entries.Pairwise zkeyLt ∧
      ∀ x ∈ (feedIndex as).entries, ∃ a ∈ as, x.1 = a.id ∧ x.2 = a.score := by
  constructor
  · exact pairwise_foldl_addActivity as ⟨[]⟩ (by simp)
  · intro x hx
    rcases mem_foldl_addActivity as ⟨[]⟩ x hx with h | h
    · simp at h
    · exact h

/-! ## Claim C3 -/

/-- C3, counterexample: two events created 5 µs and 7 µs after the epoch —
distinct `created_at` inside the same millisecond — are appended in
`created_at` order, yet `range(0, N)` lists the *older* event first, because
both share the millisecond score 0 and `ZREVRANGE` tie-breaks by the id
string alone ("…bb" before "…aa"), not by `(created_at, id)`. -/
theorem C3_same_millisecond_order_cex :
    (feedIndex cexAppends).zrevrange 0 10 = [cexActB.id, cexActA.id] ∧
    cexActB.timestamp < cexActA.timestamp ∧
    ¬ specCreatedIdOrder cexAppends ((feedIndex cexAppends).zrevrange 0 10) := by
  decide

/-- C3, amended: for every append sequence, `range` reads the global index
in non-increasing `(⌊created_at⌋ₘₛ, id)` order — the score is `created_at`
truncated to the millisecond, and the id is the tie-break on equal *scores*
(hence on equal `created_at`); distinct `created_at` falling in the same
millisecond are ordered by id alone.  The entries of the index are exactly
scored appended ids, and every `zrevrange` window is a contiguous slice of
that non-increasing enumeration. -/
theorem C3_range_nonincreasing_score_id (as : List ActivityItem) :
    List.Pairwise (fun p q => zkeyLt q p) ((feedIndex as).entries.reverse)
    ∧ (∀ x ∈ (feedIndex as).entries, ∃ a ∈ as, x.1 = a.id ∧ x.2 = a.score)
    ∧ ∀ start stop, (feedIndex as).zrevrange start stop =
        ((((feedIndex as).entries.reverse).map Prod.fst).drop start).take
          (stop + 1 - start) := by
  refine ⟨?_, (feedIndex_invariant as).2, fun start stop => rfl⟩
  rw [List.pairwise_reverse]
  exact (feedIndex_invariant as).1

/-! ## Claim C6 -/

theorem entries_addActivity (w : ZSet) (b : ActivityItem) :
    (w.addActivity b).entries =
      (w.zadd b.id b.score).entries.drop
        ((w.zadd b.id b.score).entries.length - maxActivitiesRedis) := by
  simp only [ZSet.addActivity, ZSet.trimTo]

theorem card_addActivity_le (w : ZSet) (b : ActivityItem) :
    (w.addActivity b).card ≤ maxActivitiesRedis := by
  simp only [ZSet.card, entries_addActivity, List.length_drop]
  omega

/-- C6: one `_add_to_sorted_list` step on a sorted index — the `ZADD` result
splits as `dropped ++ kept`: the trim keeps at most `N_max = 5000` entries,
everything it drops is strictly below everything it keeps in the
`(score, id)` order (oldest dropped first — no newer entry is evicted before
an older one), and the bound holds after every append sequence. -/
theorem C6_trim_keeps_newest (z : ZSet) (a : ActivityItem)
    (hz : z.entries.Pairwise zkeyLt) :
    (z.addActivity a).card ≤ maxActivitiesRedis
    ∧ (z.zadd a.id a.score).entries =
        ((z.zadd a.id a.score).entries.take
          ((z.zadd a.id a.score).entries.length - maxActivitiesRedis))
        ++ (z.addActivity a).entries
    ∧ (∀ d ∈ (z.zadd a.id a.score).entries.take
          ((z.zadd a.id a.score).entries.length - maxActivitiesRedis),
        ∀ kept ∈ (z.addActivity a).entries, zkeyLt d kept)
    ∧ ∀ as : List ActivityItem, (feedIndex as).card ≤ maxActivitiesRedis := by
  have hsorted := pairwise_zadd hz a.id a.score
  refine ⟨card_addActivity_le z a, ?_, ?_, ?_⟩
  · rw [entries_addActivity z a]
    exact (List.take_append_drop _ _).symm
  · intro d hd kept hkept
    rw [entries_addActivity z a] at hkept
    have hp : ((z.zadd a.id a.score).entries.take
          ((z.zadd a.id a.score).entries.length - maxActivitiesRedis)
        ++ (z.zadd a.id a.score).entries.drop
          ((z.zadd a.id a.score).entries.length - maxActivitiesRedis)).Pairwise
        zkeyLt := by
      rw [List.take_append_drop]
      exact hsorted
    exact (List.pairwise_append.mp hp).2.2 d hd kept hkept
  · intro as
    rcases List.eq_nil_or_concat as with rfl | ⟨front, b, rfl⟩
    · simp [feedIndex, ZSet.card]
    · have hstep : feedIndex (front.concat b) = (feedIndex front).addActivity b := by
        simp [feedIndex]
      rw [hstep]
      exact card_addActivity_le (feedIndex front) b

/-- C6, witness. -/
theorem C6_trim_keeps_newest_witness :
    List.Pairwise zkeyLt ([("a", 1)] : List (String × Nat)) ∧
    ((⟨[("a", 1)]⟩ : ZSet).addActivity (sampleActivity "b" 2000)).card ≤
      maxActivitiesRedis :=
  ⟨by decide,
   (C6_trim_keeps_newest ⟨[("a", 1)]⟩ (sampleActivity "b" 2000) (by decide)).1⟩

/-! ## Claim C1 -/

theorem str_data_append (s t : String) : (s ++ t).data = s.data ++ t.data := rfl

/-- A per-user bookmark key is never the payload key of any event: the two
key families differ at character 9 (`b` vs `d`). -/
theorem bookmarkKey_ne_dataKey (u e i : String) :
    bookmarkKey u e ≠ "activity:data:" ++ i := by
  intro h
  have hd := congrArg (fun s => s.data.get? 9) h
  simp only [bookmarkKey, str_data_append, List.append_assoc] at hd
  rw [List.get?_append (by decide)] at hd
  rw [List.get?_append (by decide)] at hd
  exact absurd hd (by decide)

/-- C1, counterexample: with the durable store unreachable — every store
write failing — `add_activity` still returns a fresh event id, and the store
holds neither the payload nor the index entry afterwards.  The failures were
caught and logged inside `_save_activity_to_redis`; nothing surfaced to the
producer, contradicting "append fails with `StoreUnavailable`" and "append
never returns a fresh event id while the payload write or index insert has
failed". -/
theorem C1_silent_ingestion_failure_cex :
    (addActivity feedStateDown demoParams "activity_9_ff" 42).toOption =
      some ("activity_9_ff",
        { recent_activities := [mkActivity demoParams "activity_9_ff" 42]
          activity_cache := [("activity_9_ff", mkActivity demoParams "activity_9_ff" 42)]
          redis := storeDown })
    ∧ storeDown.kv = [] ∧ storeDown.zset.entries = [] := by
  decide

/-- C1, amended: when the durable store is unreachable, `add_activity`
*succeeds* — it returns the fresh event id with the durable store completely
untouched; the lost writes are logged inside the store layer and never
surface to the producer. -/
theorem C1_append_succeeds_store_down (st : FeedState) (p : AddParams)
    (newId : String) (now : Nat) (h : st.redis.reachable = false) :
    ∃ st' : FeedState,
      addActivity st p newId now = .ok (newId, st') ∧ st'.redis = st.redis := by
  have hsave : saveActivityToRedis st.redis (mkActivity p newId now) = st.redis := by
    simp [saveActivityToRedis, redisSet, addToSortedList, h]
  have hstats : updateActivityStats st.redis (mkActivity p newId now) = st.redis := by
    simp [updateActivityStats, redisGet, redisSet, h]
  simp only [addActivity, hsave, hstats]
  exact ⟨_, rfl, rfl⟩

/-- C1, witness for the amended theorem. -/
theorem C1_append_succeeds_store_down_witness :
    feedStateDown.redis.reachable = false ∧
    ∃ st' : FeedState,
      addActivity feedStateDown demoParams "activity_9_ff" 42 =
        .ok ("activity_9_ff", st') ∧ st'.redis = feedStateDown.redis :=
  ⟨by decide,
   C1_append_succeeds_store_down feedStateDown demoParams "activity_9_ff" 42
     (by decide)⟩

/-! ## Claim C2 -/

/-- C2, counterexample: `mark_activity_read("e1", "u1")` flips the `read`
flag on the shared record, so the read state observed by the *different*
user `u2` changes from `false` to `true` — `mark_read` does not change only
the `(u, e)` overlay flag. -/
theorem C2_mark_read_not_private_cex :
    observedRead feedState1 "u2" "e1" = some false
    ∧ ("u1" : String) ≠ "u2"
    ∧ observedRead (markActivityRead feedState1 "e1" "u1").2 "u2" "e1" =
        some true := by
  decide

/-- C2, amended: `mark_read(u, e)` ignores `u` and sets the *shared* event
record's `read` flag, so afterwards every observer — not just `u` — reads
the event as `read = true`; the per-user bookmark overlay keys of every user
are untouched. -/
theorem C2_mark_read_shared_flag (st : FeedState) (aid u : String)
    (a : ActivityItem) (ha : getActivityById st aid = some a) :
    (markActivityRead st aid u).1 = true
    ∧ (∀ u' : String, observedRead (markActivityRead st aid u).2 u' aid = some true)
    ∧ ∀ u' e' : String,
        bookmarkState (markActivityRead st aid u).2 u' e' =
          bookmarkState st u' e' := by
  have hm : markActivityRead st aid u =
      (true, { st with
        activity_cache := alistSet st.activity_cache aid { a with read := true }
        redis := saveActivityToRedis st.redis { a with read := true } }) := by
    simp [markActivityRead, ha]
  refine ⟨by rw [hm], ?_, ?_⟩
  · intro u'
    rw [hm]
    simp [observedRead, getActivityById, alistGet_set_self]
  · intro u' e'
    rw [hm]
    by_cases hr : st.redis.reachable
    · simp [bookmarkState, saveActivityToRedis, redisSet, addToSortedList, hr,
        alistGet_set_ne _ _ _ _ (bookmarkKey_ne_dataKey u' e' a.id)]
    · simp [bookmarkState, saveActivityToRedis, redisSet, addToSortedList, hr]

/-- C2, witness for the amended theorem. -/
theorem C2_mark_read_shared_flag_witness :
    getActivityById feedState1 "e1" = some (sampleActivity "e1" 1000) ∧
    observedRead (markActivityRead feedState1 "e1" "u1").2 "u2" "e1" = some true :=
  ⟨by decide,
   (C2_mark_read_shared_flag feedState1 "e1" "u1" (sampleActivity "e1" 1000)
     (by decide)).2.1 "u2"⟩

/-! ## Claim C7 -/

/-- The delete branch of `bookmark_activity`. -/
theorem bookmarkActivity_eq_del (st : FeedState) (aid u : String)
    (a : ActivityItem) (ha : getActivityById st aid = some a)
    (hr : st.redis.reachable = true)
    (hb : (alistGet st.redis.kv (bookmarkKey u aid)).isSome = true) :
    bookmarkActivity st aid u =
      (true, { st with
        activity_cache := alistSet st.activity_cache aid { a with bookmarked := false }
        redis := { st.redis with
          kv := alistDel st.redis.kv (bookmarkKey u aid) } }) := by
  simp [bookmarkActivity, ha, redisExists, redisDelete, hr, hb]

/-- The create branch of `bookmark_activity`. -/
theorem bookmarkActivity_eq_set (st : FeedState) (aid u : String)
    (a : ActivityItem) (ha : getActivityById st aid = some a)
    (hr : st.redis.reachable = true)
    (hb : (alistGet st.redis.kv (bookmarkKey u aid)).isSome = false) :
    bookmarkActivity st aid u =
      (true, { st with
        activity_cache := alistSet st.activity_cache aid { a with bookmarked := true }
        redis := { st.redis with
          kv := alistSet st.redis.kv (bookmarkKey u aid) (.stamp a.timestamp) } }) := by
  simp [bookmarkActivity, ha, redisExists, redisSet, hr, hb]

/-- C7: for an existing event and a reachable store, each
`bookmark_activity(e, u)` call reports success and flips the existence of
`u`'s per-event bookmark key, and two consecutive calls return the key to
its original state. -/
theorem C7_bookmark_double_toggle (st : FeedState) (aid u : String)
    (a : ActivityItem) (ha : getActivityById st aid = some a)
    (hr : st.redis.reachable = true) :
    (bookmarkActivity st aid u).1 = true
    ∧ (bookmarkActivity (bookmarkActivity st aid u).2 aid u).1 = true
    ∧ bookmarkState (bookmarkActivity st aid u).2 u aid =
        !(bookmarkState st u aid)
    ∧ bookmarkState (bookmarkActivity (bookmarkActivity st aid u).2 aid u).2 u aid =
        bookmarkState st u aid := by
  by_cases hb : (alistGet st.redis.kv (bookmarkKey u aid)).isSome
  · -- currently bookmarked: delete, then re-create
    have h1 := bookmarkActivity_eq_del st aid u a ha hr hb
    have hget1 : getActivityById (bookmarkActivity st aid u).2 aid =
        some { a with bookmarked := false } := by
      rw [h1]; simp [getActivityById, alistGet_set_self]
    have hb2 : (alistGet (bookmarkActivity st aid u).2.redis.kv
        (bookmarkKey u aid)).isSome = false := by
      rw [h1]; simp [alistGet_del_self]
    have h2 := bookmarkActivity_eq_set (bookmarkActivity st aid u).2 aid u
      { a with bookmarked := false } hget1 (by rw [h1]; exact hr) hb2
    refine ⟨by rw [h1], by rw [h2], ?_, ?_⟩
    · rw [h1]
      simp [bookmarkState, alistGet_del_self, hb]
    · rw [h2]
      simp [bookmarkState, alistGet_set_self, hb]
  · -- not bookmarked: create, then delete
    have hbf : (alistGet st.redis.kv (bookmarkKey u aid)).isSome = false := by
      simpa using hb
    have h1 := bookmarkActivity_eq_set st aid u a ha hr hbf
    have hget1 : getActivityById (bookmarkActivity st aid u).2 aid =
        some { a with bookmarked := true } := by
      rw [h1]; simp [getActivityById, alistGet_set_self]
    have hb2 : (alistGet (bookmarkActivity st aid u).2.redis.kv
        (bookmarkKey u aid)).isSome = true := by
      rw [h1]; simp [alistGet_set_self]
    have h2 := bookmarkActivity_eq_del (bookmarkActivity st aid u).2 aid u
      { a with bookmarked := true } hget1 (by rw [h1]; exact hr) hb2
    refine ⟨by rw [h1], by rw [h2], ?_, ?_⟩
    · rw [h1]
      simp [bookmarkState, alistGet_set_self, hbf]
    · rw [h2]
      simp [bookmarkState, alistGet_del_self, hbf]

/-- C7, witness. -/
theorem C7_bookmark_double_toggle_witness :
    getActivityById feedState1 "e1" = some (sampleActivity "e1" 1000) ∧
    feedState1.redis.reachable = true ∧
    bookmarkState (bookmarkActivity (bookmarkActivity feedState1 "e1" "u1").2
        "e1" "u1").2 "u1" "e1" = bookmarkState feedState1 "u1" "e1" :=
  ⟨by decide, by decide,
   (C7_bookmark_double_toggle feedState1 "e1" "u1" (sampleActivity "e1" 1000)
     (by decide) (by decide)).2.2.2⟩

/-! ## Claim C8 -/

/-- A conditionally applied filter stage as one unconditional filter. -/
theorem condFilter_eq (b : Bool) (p : ActivityItem → Bool)
    (l : List ActivityItem) :
    (if b then l.filter p else l) = l.filter (fun a => !b || p a) := by
  cases b <;> simp

/-- C8: `_filter_activities` returns exactly the (sub)list of events
satisfying the conjunction over the filter dimensions — type, priority,
source, subject-areas intersection, `since` (inclusive: `since ≤ created_at`
passes), `include_system` — where each given dimension contributes the
disjunction of its values and an absent dimension contributes nothing.
(The caller-specific user dimension is claim C9 and is left off here.) -/
theorem C8_filter_is_conjunction_of_disjunctions
    (activities : List ActivityItem) (tys : Option (List ActivityType))
    (prios : Option (List ActivityPriority)) (srcs : Option (List ActivitySource))
    (areas : Option (List String)) (since : Option Nat) (inc : Bool) :
    filterActivities activities tys prios srcs none areas since inc =
      activities.filter (fun a =>
        (match since with | some s => decide (s ≤ a.timestamp) | none => true)
        && (!pyTruthyList tys || decide (a.type ∈ tys.getD []))
        && (!pyTruthyList prios || decide (a.priority ∈ prios.getD []))
        && (!pyTruthyList srcs || decide (a.source ∈ srcs.getD []))
        && (!pyTruthyList areas ||
              (areas.getD []).any (fun ar => decide (ar ∈ a.tech_areas)))
        && (inc || decide (a.source ≠ ActivitySource.system))) := by
  unfold filterActivities
  simp only [pyTruthyStr, if_neg, Bool.false_eq_true, not_false_eq_true,
    if_false, condFilter_eq]
  cases since with
  | none =>
    simp only [List.filter_filter]
    refine (List.filter_congr ?_).symm
    intro a _
    simp only [Bool.true_and]
    cases inc <;> cases pyTruthyList tys <;> cases pyTruthyList prios <;>
      cases pyTruthyList srcs <;> cases pyTruthyList areas <;>
      simp [Bool.and_comm, Bool.and_assoc, Bool.and_left_comm]
  | some s =>
    simp only [List.filter_filter]
    refine (List.filter_congr ?_).symm
    intro a _
    cases inc <;> cases pyTruthyList tys <;> cases pyTruthyList prios <;>
      cases pyTruthyList srcs <;> cases pyTruthyList areas <;>
      simp [Bool.and_comm, Bool.and_assoc, Bool.and_left_comm]

/-! ## Claim C9 -/

/-- C9: with a (truthy) `user_id` filter, `_filter_activities` keeps every
event whose `user_id` is `None` alongside the caller's own events; only
events carrying a different non-null `user_id` are excluded. -/
theorem C9_user_filter_keeps_unowned (activities : List ActivityItem)
    (u : String) (hu : u ≠ "") :
    filterActivities activities none none none (some u) none none true =
      activities.filter (fun a => decide (a.user_id = some u ∨ a.user_id = none))
    ∧ (∀ a ∈ activities, a.user_id = none →
        a ∈ filterActivities activities none none none (some u) none none true)
    ∧ ∀ a ∈ activities,
        a ∉ filterActivities activities none none none (some u) none none true →
        ∃ v, a.user_id = some v ∧ v ≠ u := by
  have hpt : pyTruthyStr (some u) = true := by simp [pyTruthyStr, hu]
  have heq : filterActivities activities none none none (some u) none none true =
      activities.filter (fun a => decide (a.user_id = some u ∨ a.user_id = none)) := by
    unfold filterActivities
    simp [pyTruthyList, hpt]
  refine ⟨heq, ?_, ?_⟩
  · intro a ha hnone
    rw [heq]
    exact List.mem_filter.mpr ⟨ha, by simp [hnone]⟩
  · intro a ha hnot
    rw [heq] at hnot
    match hcase : a.user_id with
    | none => exact absurd (List.mem_filter.mpr ⟨ha, by simp [hcase]⟩) hnot
    | some v =>
      refine ⟨v, rfl, ?_⟩
      intro hv
      exact hnot (List.mem_filter.mpr ⟨ha, by simp [hcase, hv]⟩)

/-- C9, witness. -/
theorem C9_user_filter_keeps_unowned_witness :
    ("u1" : String) ≠ "" ∧
    filterActivities usersWindow none none none (some "u1") none none true =
      usersWindow.filter (fun a => decide (a.user_id = some "u1" ∨ a.user_id = none)) :=
  ⟨by decide, (C9_user_filter_keeps_unowned usersWindow "u1" (by decide)).1⟩

/-! ## Claim C10 -/

/-- The `avg_impact_score` field of `get_activity_stats`, extracted. -/
theorem avg_impact_score_eq (l : List ActivityItem) (n : Nat) :
    (activityStats l n).avg_impact_score =
      if l.isEmpty then 0
      else
        (if ((l.filter (fun a => decide ((0:ℚ) < a.impact_score))).map
              (·.impact_score)).isEmpty then (0:ℚ)
         else ((l.filter (fun a => decide ((0:ℚ) < a.impact_score))).map
              (·.impact_score)).sum /
            ((((l.filter (fun a => decide ((0:ℚ) < a.impact_score))).map
              (·.impact_score)).length : ℚ))) := by
  by_cases h : l.isEmpty <;> simp [activityStats, h]

/-- C10: `avg_impact_score` is the arithmetic mean over only the events of
the window with strictly positive `impact_score`: non-positive scores are
excluded from numerator and denominator (prepending such an event changes
nothing), and the reported value is `0.0` when no event in the window has a
positive score. -/
theorem C10_avg_over_positive_scores (acts : List ActivityItem) (now : Nat) :
    (acts.filter (fun a => decide ((0:ℚ) < a.impact_score)) = [] →
      (activityStats acts now).avg_impact_score = 0)
    ∧ (acts.filter (fun a => decide ((0:ℚ) < a.impact_score)) ≠ [] →
        (activityStats acts now).avg_impact_score =
          ((acts.filter (fun a => decide ((0:ℚ) < a.impact_score))).map
            (·.impact_score)).sum /
          ((acts.filter (fun a => decide ((0:ℚ) < a.impact_score))).length : ℚ))
    ∧ ∀ b : ActivityItem, b.impact_score ≤ 0 →
        (activityStats (b :: acts) now).avg_impact_score =
          (activityStats acts now).avg_impact_score := by
  refine ⟨?_, ?_, ?_⟩
  · intro hpos
    rw [avg_impact_score_eq]
    by_cases h : acts.isEmpty <;> simp [h, hpos]
  · intro hpos
    have hne : ¬ acts.isEmpty := by
      intro h
      rw [List.isEmpty_iff.mp h] at hpos
      simp at hpos
    rw [avg_impact_score_eq]
    simp [hne, hpos, List.length_map]
  · intro b hb
    have hbf : decide ((0:ℚ) < b.impact_score) = false := by
      simpa using not_lt.mpr hb
    rw [avg_impact_score_eq, avg_impact_score_eq]
    simp only [List.filter_cons, hbf, if_false, List.isEmpty_cons,
      Bool.false_eq_true]
    by_cases h : acts.isEmpty
    · have hnil : acts = [] := List.isEmpty_iff.mp h
      subst hnil
      simp
    · simp [h]

/-- C10, witness: on a window with one positive and one zero score the mean
ranges over the positive score only, and on a window with only a zero score
the reported average is `0`. -/
theorem C10_avg_over_positive_scores_witness :
    (List.filter (fun a => decide ((0:ℚ) < a.impact_score))
        [sampleActivity "s2" 4000] = []) ∧
    (activityStats [sampleActivity "s2" 4000] 9000).avg_impact_score = 0 ∧
    statsWindow.filter (fun a => decide ((0:ℚ) < a.impact_score)) ≠ [] ∧
    (activityStats statsWindow 9000).avg_impact_score = 1 := by
  refine ⟨by decide, (C10_avg_over_positive_scores [sampleActivity "s2" 4000] 9000).1
    (by decide), by decide, ?_⟩
  have h := (C10_avg_over_positive_scores statsWindow 9000).2.1 (by decide)
  rw [h]
  simp [statsWindow, sampleActivity]

/-! ## Claim C4 -/

/-- `find?` is unchanged by filtering with a predicate implied by the search
predicate. -/
theorem find?_filter_of_imp {α : Type} (l : List α) (p q : α → Bool)
    (himp : ∀ e, p e = true → q e = true) :
    (l.filter q).find? p = l.find? p := by
  induction l with
  | nil => simp
  | cons e rest ih =>
    by_cases hp : p e = true
    · simp [List.filter_cons, himp e hp, List.find?_cons, hp]
    · have hp' : p e = false := by simpa using hp
      by_cases hq : q e = true
      · simpa [List.filter_cons, hq, List.find?_cons, hp'] using ih
      · have hq' : q e = false := by simpa using hq
        simpa [List.filter_cons, hq', List.find?_cons, hp'] using ih

/-- Disconnecting one connection does not affect how any other connection is
found. -/
theorem findConn_disconnect_ne (st : WSManager) (k c : String) (h : c ≠ k) :
    (st.disconnect k).findConn c = st.findConn c := by
  unfold WSManager.disconnect
  match hk : st.findConn k with
  | none => rfl
  | some ck =>
    show List.find? _ (st.connections.filter _) = _
    refine find?_filter_of_imp _ _ _ ?_
    intro e he
    have : e.connection_id = c := by simpa using he
    simp [this, h]

/-- `disconnect` removes exactly the target id from the connection
registry. -/
theorem connIds_disconnect (st : WSManager) (k : String) :
    (st.disconnect k).connIds = st.connIds.filter (fun c => decide (c ≠ k)) := by
  unfold WSManager.disconnect
  match hk : st.findConn k with
  | none =>
    have hall : ∀ c ∈ st.connIds, decide (c ≠ k) = true := by
      intro c hc
      rcases List.mem_map.mp hc with ⟨e, he, rfl⟩
      have := List.find?_eq_none.mp hk e he
      simpa using fun hce => this (by simpa using hce)
    exact ((List.filter_eq_self.mpr hall).symm)
  | some ck =>
    show (st.connections.filter _).map _ = _
    unfold WSManager.connIds
    generalize st.connections = l
    induction l with
    | nil => simp
    | cons e rest ih =>
      by_cases h : e.connection_id = k
      · simpa [List.filter_cons, h] using ih
      · simpa [List.filter_cons, h] using ih

/-- After the per-topic pruning fold of `disconnect`, the pruned id is in no
topic's member list, provided the connection's own subscription list covered
every topic containing it (the registry invariant). -/
theorem prune_foldl (k : String) :
    ∀ (topics : List String) (acc : List (String × List String)),
      (∀ t ms, alistGet acc t = some ms → k ∈ ms → t ∈ topics) →
      ∀ t ms, alistGet (topics.foldl (fun acc topic =>
          match alistGet acc topic with
          | some ms =>
            let ms' := ms.filter (fun m => m ≠ k)
            if ms'.isEmpty then alistDel acc topic else alistSet acc topic ms'
          | none => acc) acc) t = some ms → k ∉ ms := by
  intro topics
  induction topics with
  | nil =>
    intro acc hcov t ms hget hk
    simpa using hcov t ms hget hk
  | cons t0 rest ih =>
    intro acc hcov t ms hget
    rw [List.foldl_cons] at hget
    refine ih _ ?_ t ms hget
    intro t' ms' hget' hk'
    match h0 : alistGet acc t0 with
    | none =>
      rw [h0] at hget'
      have := hcov t' ms' hget' hk'
      rcases List.mem_cons.mp this with rfl | hmem
      · rw [hget'] at h0
        cases h0
      · exact hmem
    | some ms0 =>
      rw [h0] at hget'
      simp only at hget'
      by_cases hemp : (ms0.filter (fun m => m ≠ k)).isEmpty
      · rw [if_pos hemp] at hget'
        by_cases ht : t' = t0
        · subst ht
          rw [alistGet_del_self] at hget'
          cases hget'
        · rw [alistGet_del_ne _ _ _ ht] at hget'
          have := hcov t' ms' hget' hk'
          rcases List.mem_cons.mp this with rfl | hmem
          · exact absurd rfl ht
          · exact hmem
      · rw [if_neg hemp] at hget'
        by_cases ht : t' = t0
        · subst ht
          rw [alistGet_set_self] at hget'
          cases hget'
          have := List.of_mem_filter hk'
          simp at this
        · rw [alistGet_set_ne _ _ _ _ ht] at hget'
          have := hcov t' ms' hget' hk'
          rcases List.mem_cons.mp this with rfl | hmem
          · exact absurd rfl ht
          · exact hmem

/-- Under the registry invariant, after `disconnect(k)` no topic membership
list contains `k`. -/
theorem disconnect_prunes_memberships (st : WSManager) (k : String)
    (ck : WSConnection) (hk : st.findConn k = some ck)
    (hinv : ∀ t ms, alistGet st.subscriptions t = some ms → k ∈ ms →
      t ∈ ck.subscriptions) :
    ∀ t ms, alistGet (st.disconnect k).subscriptions t = some ms → k ∉ ms := by
  unfold WSManager.disconnect
  rw [hk]
  exact prune_foldl k ck.subscriptions st.subscriptions hinv

/-- The broadcast fold over members that are all registered and all succeed:
the state is unchanged and every member receives the message. -/
theorem broadcast_fold_all_ok (sendOk : String → Bool) :
    ∀ (l : List String) (st : WSManager),
      (∀ c ∈ l, sendOk c = true) → (∀ c ∈ l, (st.findConn c).isSome) →
      ∀ (n : Nat) (log : List (String × Bool)),
      l.foldl (fun acc cid =>
        let r := sendToConnection sendOk acc.2.1 cid
        (acc.1 + (if r.1 then 1 else 0), r.2, acc.2.2 ++ [(cid, r.1)]))
        (n, st, log) =
      (n + l.length, st, log ++ l.map (fun c => (c, true))) := by
  intro l
  induction l with
  | nil => intro st _ _ n log; simp
  | cons c rest ih =>
    intro st hok hfound n log
    have hc : sendOk c = true := hok c (List.mem_cons_self c rest)
    have hstep : sendToConnection sendOk st c = (true, st) := by
      rcases Option.isSome_iff_exists.mp (hfound c (List.mem_cons_self c rest))
        with ⟨a, ha⟩
      simp [sendToConnection, ha, hc]
    have hrest := ih st
      (fun x hx => hok x (List.mem_cons_of_mem c hx))
      (fun x hx => hfound x (List.mem_cons_of_mem c hx))
      (n + 1) (log ++ [(c, true)])
    simp only [List.foldl_cons, hstep, if_true] at hrest ⊢
    rw [hrest]
    simp [List.append_assoc, Nat.add_assoc, Nat.add_comm 1]

/-- The broadcast fold over a failing member followed by members that all
succeed: the failing member is disconnected, everybody else still
delivered. -/
theorem broadcast_fold_fail_head (sendOk : String → Bool) (k : String)
    (l2 : List String) (st : WSManager)
    (hkconn : (st.findConn k).isSome) (hfail : sendOk k = false)
    (h2ok : ∀ c ∈ l2, sendOk c = true)
    (h2found : ∀ c ∈ l2, ((st.disconnect k).findConn c).isSome) :
    ∀ (n : Nat) (log : List (String × Bool)),
      (k :: l2).foldl (fun acc cid =>
        let r := sendToConnection sendOk acc.2.1 cid
        (acc.1 + (if r.1 then 1 else 0), r.2, acc.2.2 ++ [(cid, r.1)]))
        (n, st, log) =
      (n + l2.length, st.disconnect k,
        (log ++ [(k, false)]) ++ l2.map (fun c => (c, true))) := by
  intro n log
  have hkstep : sendToConnection sendOk st k = (false, st.disconnect k) := by
    rcases Option.isSome_iff_exists.mp hkconn with ⟨a, ha⟩
    simp [sendToConnection, ha, hfail]
  have hrest := broadcast_fold_all_ok sendOk l2 (st.disconnect k) h2ok h2found
    n (log ++ [(k, false)])
  simp only [List.foldl_cons, hkstep, Bool.false_eq_true, if_false,
    Nat.add_zero] at hrest ⊢
  rw [hrest]

/-- Projecting the successful attempts of a log keeps exactly the non-`k`
members, in order. -/
theorem deliveries_filter_map (l : List String) (k : String) :
    ((l.map (fun c => (c, decide (c ≠ k)))).filter (fun e => e.2)).map
      (fun e => e.1) = l.filter (fun c => decide (c ≠ k)) := by
  induction l with
  | nil => simp
  | cons c rest ih =>
    by_cases h : c = k
    · simpa [List.filter_cons, h] using ih
    · simpa [List.filter_cons, h] using ih

/-- C4: broadcasting one message to a topic whose member snapshot contains
exactly one failing member `k` (all members registered, the registry
invariant holding): every member is attempted exactly once in snapshot
order with success exactly for the `N−1` non-failing members (so none of
them is skipped and `k` is never retried), `sent_count = N−1`, the final
state is precisely `disconnect(k)` — `k` (and only `k`) is removed from the
connection registry and from every topic membership — and the successful
recipients are exactly the non-`k` members, each delivered once. -/
theorem C4_broadcast_isolation (st : WSManager) (topic k : String)
    (ms : List String) (ck : WSConnection) (sendOk : String → Bool)
    (hms : alistGet st.subscriptions topic = some ms)
    (hnd : ms.Nodup)
    (hfound : ∀ c ∈ ms, (st.findConn c).isSome)
    (hkmem : k ∈ ms)
    (hkconn : st.findConn k = some ck)
    (hinv : ∀ t ms', alistGet st.subscriptions t = some ms' → k ∈ ms' →
      t ∈ ck.subscriptions)
    (hok : ∀ c ∈ ms, c ≠ k → sendOk c = true)
    (hfail : sendOk k = false) :
    broadcastToTopic sendOk st topic =
      (ms.length - 1, st.disconnect k, ms.map (fun c => (c, decide (c ≠ k))))
    ∧ k ∉ (st.disconnect k).connIds
    ∧ (st.disconnect k).connIds = st.connIds.filter (fun c => decide (c ≠ k))
    ∧ (∀ t ms', alistGet (st.disconnect k).subscriptions t = some ms' → k ∉ ms')
    ∧ ((ms.map (fun c => (c, decide (c ≠ k)))).filter (fun e => e.2)).map
        (fun e => e.1) = ms.filter (fun c => decide (c ≠ k)) := by
  obtain ⟨l1, l2, rfl⟩ := List.append_of_mem hkmem
  have hk2 : k ∉ l2 := (List.nodup_cons.mp (List.Nodup.of_append_right hnd)).1
  have hk1 : k ∉ l1 := fun hmem =>
    (List.disjoint_of_nodup_append hnd) hmem (List.mem_cons_self k l2)
  have h1ok : ∀ c ∈ l1, sendOk c = true := fun c hc =>
    hok c (List.mem_append_left _ hc) (fun h => hk1 (h ▸ hc))
  have h1found : ∀ c ∈ l1, (st.findConn c).isSome := fun c hc =>
    hfound c (List.mem_append_left _ hc)
  have h2ok : ∀ c ∈ l2, sendOk c = true := fun c hc =>
    hok c (List.mem_append_right _ (List.mem_cons_of_mem k hc))
      (fun h => hk2 (h ▸ hc))
  have h2found : ∀ c ∈ l2, ((st.disconnect k).findConn c).isSome := by
    intro c hc
    rw [findConn_disconnect_ne st k c (fun h => hk2 (h ▸ hc))]
    exact hfound c (List.mem_append_right _ (List.mem_cons_of_mem k hc))
  have hkiso : (st.findConn k).isSome := by rw [hkconn]; rfl
  refine ⟨?_, ?_, connIds_disconnect st k,
    disconnect_prunes_memberships st k ck hkconn hinv, ?_⟩
  · -- the broadcast run itself
    simp only [broadcastToTopic, hms]
    rw [List.foldl_append]
    rw [broadcast_fold_all_ok sendOk l1 st h1ok h1found]
    rw [broadcast_fold_fail_head sendOk k l2 st hkiso hfail h2ok h2found]
    have e1 : l1.map (fun c => (c, !decide (c = k))) =
        l1.map (fun c => (c, true)) :=
      List.map_congr_left (fun c hc => by
        simp [show ¬ c = k from fun h => hk1 (h ▸ hc)])
    have e2 : l2.map (fun c => (c, !decide (c = k))) =
        l2.map (fun c => (c, true)) :=
      List.map_congr_left (fun c hc => by
        simp [show ¬ c = k from fun h => hk2 (h ▸ hc)])
    refine Prod.ext ?_ (Prod.ext rfl ?_)
    · show 0 + l1.length + l2.length = (l1 ++ k :: l2).length - 1
      simp [List.length_append]
    · show ([] ++ l1.map (fun c => (c, true))) ++ [(k, false)]
          ++ l2.map (fun c => (c, true)) =
        (l1 ++ k :: l2).map (fun c => (c, decide (c ≠ k)))
      simp [List.map_append, e1, e2]
  · rw [connIds_disconnect st k]
    intro hmem
    have := List.of_mem_filter hmem
    simp at this
  · exact deliveries_filter_map (l1 ++ k :: l2) k

/-- C4, witness: three members on topic `t`, `c2` failing. -/
theorem C4_broadcast_isolation_witness :
    alistGet wsFixture.subscriptions "t" = some ["c1", "c2", "c3"] ∧
    broadcastToTopic (fun c => decide (c ≠ "c2")) wsFixture "t" =
      (2, wsFixture.disconnect "c2",
        [("c1", true), ("c2", false), ("c3", true)]) := by
  refine ⟨by decide, ?_⟩
  have hinv : ∀ t ms', alistGet wsFixture.subscriptions t = some ms' →
      "c2" ∈ ms' → t ∈ (⟨"c2", none, ["t"]⟩ : WSConnection).subscriptions := by
    intro t ms' h1 _
    by_cases ht : ("t" : String) = t
    · rw [← ht]; simp
    · simp [wsFixture, alistGet, ht] at h1
  have h := (C4_broadcast_isolation wsFixture "t" "c2" ["c1", "c2", "c3"]
    ⟨"c2", none, ["t"]⟩ (fun c => decide (c ≠ "c2"))
    (by decide) (by decide) (by decide) (by decide) (by decide)
    hinv (by decide) (by decide)).1
  rw [h]
  decide

/-! ## Claim C5 -/

/-- A send to a live connection over a healthy transport delivers exactly
one copy and leaves the state unchanged. -/
theorem cmSendPersonal_ok (sendOk : String → Bool) (f : Nat) (st : ConnManager)
    (m : WSMessage) (cid : String)
    (hc : st.active_connections.contains cid = true)
    (hs : sendOk cid = true) :
    cmSendPersonal sendOk (f + 1) st m cid = (st, [(cid, m)]) := by
  have hmem : cid ∈ st.active_connections := by simpa using hc
  simp [cmSendPersonal, hmem, hs]

/-- The history-replay fold: each recorded message is sent to the new
connection in order; with a healthy transport the state is untouched. -/
theorem cm_hist_fold (sendOk : String → Bool) (f : Nat) (cid : String) :
    ∀ (ml : List WSMessage) (st : ConnManager)
      (log : List (String × WSMessage)),
      st.active_connections.contains cid = true → sendOk cid = true →
      ml.foldl (fun acc m =>
        let r := cmSendPersonal sendOk (f + 1) acc.1 (stripHistorical m) cid
        (r.1, acc.2 ++ r.2)) (st, log) =
      (st, log ++ ml.map (fun m => (cid, stripHistorical m))) := by
  intro ml
  induction ml with
  | nil => intro st log _ _; simp
  | cons m rest ih =>
    intro st log hc hs
    have hstep := cmSendPersonal_ok sendOk f st (stripHistorical m) cid hc hs
    have hrest := ih st (log ++ [(cid, stripHistorical m)]) hc hs
    simp only [List.foldl_cons, hstep] at hrest ⊢
    rw [hrest]
    simp [List.append_assoc]

/-- The per-group broadcast fold over live members with healthy
transports: every member receives exactly one copy, state untouched. -/
theorem cm_bcast_fold (sendOk : String → Bool) (f : Nat) (m : WSMessage) :
    ∀ (l : List String) (st : ConnManager)
      (log : List (String × WSMessage)),
      (∀ x ∈ l, st.active_connections.contains x = true) →
      (∀ x ∈ l, sendOk x = true) →
      l.foldl (fun acc cid =>
        let r := cmSendPersonal sendOk (f + 1) acc.1 m cid
        (r.1, acc.2 ++ r.2)) (st, log) =
      (st, log ++ l.map (fun x => (x, m))) := by
  intro l
  induction l with
  | nil => intro st log _ _; simp
  | cons x rest ih =>
    intro st log hc hs
    have hstep := cmSendPersonal_ok sendOk f st m x
      (hc x (List.mem_cons_self x rest)) (hs x (List.mem_cons_self x rest))
    have hrest := ih st (log ++ [(x, m)])
      (fun y hy => hc y (List.mem_cons_of_mem x hy))
      (fun y hy => hs y (List.mem_cons_of_mem x hy))
    simp only [List.foldl_cons, hstep] at hrest ⊢
    rw [hrest]
    simp [List.append_assoc]

/-- `broadcast_to_group` with no exclusions over a non-empty group of live
members: the message is recorded in the history and delivered once to each
member. -/
theorem cmBroadcastGroup_ok (sendOk : String → Bool) (f : Nat)
    (st : ConnManager) (g : String) (m : WSMessage) (mem : List String)
    (hmem : alistGet st.connection_groups g = some mem) (hne : mem ≠ [])
    (hlive : ∀ x ∈ mem, st.active_connections.contains x = true)
    (hsend : ∀ x ∈ mem, sendOk x = true) :
    cmBroadcastGroup sendOk (f + 1 + 1) st g m [] =
      ({ st with recent_messages := addToHistory st.recent_messages m },
        mem.map (fun x => (x, m))) := by
  have hfilter : mem.filter (fun c => !(([] : List String).contains c)) = mem :=
    List.filter_eq_self.mpr (fun a _ => by simp)
  have hfold := cm_bcast_fold sendOk f m mem
    { st with recent_messages := addToHistory st.recent_messages m }
    [] hlive hsend
  simp only [cmBroadcastGroup, hmem, hfilter]
  rw [if_neg (by simpa using hne)]
  simpa using hfold

/-- `broadcast_to_group` over an empty member set: nothing recorded,
nothing sent. -/
theorem cmBroadcastGroup_empty (sendOk : String → Bool) (f : Nat)
    (st : ConnManager) (g : String) (m : WSMessage) (exclude : List String)
    (hmem : alistGet st.connection_groups g = some []) :
    cmBroadcastGroup sendOk (f + 1) st g m exclude = (st, []) := by
  simp [cmBroadcastGroup, hmem]

/-- Deliveries of a uniform fan-out log, observed at one recipient. -/
theorem deliveriesTo_map_self (cid : String) (ml : List WSMessage)
    (g : WSMessage → WSMessage) :
    deliveriesTo (ml.map (fun m => (cid, g m))) cid = ml.map g := by
  induction ml with
  | nil => simp [deliveriesTo]
  | cons m rest ih => simpa [deliveriesTo, List.filter_cons] using ih

/-- Observing one fan-out at a recipient that appears once at the end. -/
theorem deliveriesTo_append_self (cid : String) (ds : List String)
    (m : WSMessage) (hds : ds.contains cid = false) :
    deliveriesTo ((ds ++ [cid]).map (fun x => (x, m))) cid = [m] := by
  induction ds with
  | nil => simp [deliveriesTo]
  | cons d rest ih =>
    have hd : ¬ d = cid := by
      intro h
      rw [h] at hds
      simp [List.contains_cons] at hds
    have hrest : rest.contains cid = false := by
      simp [List.contains_cons] at hds
      simpa using hds.2
    simpa [deliveriesTo, List.filter_cons, hd] using ih hrest

set_option maxHeartbeats 1600000 in
/-- `connect` through the `/ws/dashboard` endpoint in the replay scenario:
the connection is registered and added to the `dashboard`, `notifications`
and `global` groups, the five cached events are replayed to it (badge
stripped) in order, and the `admin` welcome notification reaches nobody
(empty admin group), leaving the history untouched. -/
theorem cmConnectDashboard_replay (e1 e2 e3 e4 e5 : WSMessage) (c : String)
    (f : Nat) (st : ConnManager) (ds ns gsm : List String)
    (hhist : st.recent_messages = [e1, e2, e3, e4, e5])
    (hdash : alistGet st.connection_groups "dashboard" = some ds)
    (hnotif : alistGet st.connection_groups "notifications" = some ns)
    (hglob : alistGet st.connection_groups "global" = some gsm)
    (hcds : ds.contains c = false)
    (hcns : ns.contains c = false)
    (hcgs : gsm.contains c = false)
    (hcact : st.active_connections.contains c = false)
    (hadmin : alistGet st.connection_groups "admin" = some []) :
    cmConnect (fun _ => true) (f + 1 + 1) st c dashboardGroups =
      (⟨st.active_connections ++ [c],
        alistSet (alistSet (alistSet st.connection_groups
            "dashboard" (ds ++ [c])) "notifications" (ns ++ [c]))
          "global" (gsm ++ [c]),
        [e1, e2, e3, e4, e5]⟩,
       [e1, e2, e3, e4, e5].map (fun m => (c, stripHistorical m))) := by
  have hcontains : (st.active_connections ++ [c]).contains c = true := by simp
  have hG1n : alistGet (alistSet st.connection_groups "dashboard" (ds ++ [c]))
      "notifications" = some ns := by
    rw [alistGet_set_ne _ _ _ _ (by decide)]
    exact hnotif
  have hG2g : alistGet (alistSet (alistSet st.connection_groups
      "dashboard" (ds ++ [c])) "notifications" (ns ++ [c])) "global" =
      some gsm := by
    rw [alistGet_set_ne _ _ _ _ (by decide), alistGet_set_ne _ _ _ _ (by decide)]
    exact hglob
  have hadmin3 : alistGet (alistSet (alistSet (alistSet st.connection_groups
      "dashboard" (ds ++ [c])) "notifications" (ns ++ [c]))
      "global" (gsm ++ [c])) "admin" = some [] := by
    rw [alistGet_set_ne _ _ _ _ (by decide), alistGet_set_ne _ _ _ _ (by decide),
      alistGet_set_ne _ _ _ _ (by decide)]
    exact hadmin
  have hst2 :
      cmSendHistory (fun _ => true) (f + 1 + 1)
        ⟨st.active_connections ++ [c],
          alistSet (alistSet (alistSet st.connection_groups
              "dashboard" (ds ++ [c])) "notifications" (ns ++ [c]))
            "global" (gsm ++ [c]),
          [e1, e2, e3, e4, e5]⟩ c =
      (⟨st.active_connections ++ [c],
          alistSet (alistSet (alistSet st.connection_groups
              "dashboard" (ds ++ [c])) "notifications" (ns ++ [c]))
            "global" (gsm ++ [c]),
          [e1, e2, e3, e4, e5]⟩,
        [e1, e2, e3, e4, e5].map (fun m => (c, stripHistorical m))) := by
    have hfold := cm_hist_fold (fun _ => true) (f + 1) c [e1, e2, e3, e4, e5]
      ⟨st.active_connections ++ [c],
        alistSet (alistSet (alistSet st.connection_groups
            "dashboard" (ds ++ [c])) "notifications" (ns ++ [c]))
          "global" (gsm ++ [c]),
        [e1, e2, e3, e4, e5]⟩ [] hcontains rfl
    unfold cmSendHistory
    rw [if_neg (by simp)]
    simpa using hfold
  have hwelcome := cmBroadcastGroup_empty (fun _ => true) (f + 1)
    ⟨st.active_connections ++ [c],
      alistSet (alistSet (alistSet st.connection_groups
          "dashboard" (ds ++ [c])) "notifications" (ns ++ [c]))
        "global" (gsm ++ [c]),
      [e1, e2, e3, e4, e5]⟩ "admin" (welcomeMsg c) [c] hadmin3
  have hgrp : (["dashboard", "notifications", "global"] : List String).foldl
      (fun (s : ConnManager) (g : String) =>
        let cur := (alistGet s.connection_groups g).getD []
        { s with connection_groups :=
            alistSet s.connection_groups g (if cur.contains c then cur else cur ++ [c]) })
      (⟨st.active_connections ++ [c], st.connection_groups,
        [e1, e2, e3, e4, e5]⟩ : ConnManager) =
      (⟨st.active_connections ++ [c],
        alistSet (alistSet (alistSet st.connection_groups
            "dashboard" (ds ++ [c])) "notifications" (ns ++ [c]))
          "global" (gsm ++ [c]),
        [e1, e2, e3, e4, e5]⟩ : ConnManager) := by
    simp only [List.foldl_cons, List.foldl_nil, hdash, hG1n, hG2g,
      Option.getD_some, hcds, hcns, hcgs, Bool.false_eq_true, if_false]
  simp only [cmConnect, dashboardGroups, hhist, hcact, Bool.false_eq_true,
    if_false, List.isEmpty_cons, hgrp, hst2, hwelcome, List.append_nil]

theorem deliveriesTo_append (l1 l2 : List (String × WSMessage)) (cid : String) :
    deliveriesTo (l1 ++ l2) cid = deliveriesTo l1 cid ++ deliveriesTo l2 cid := by
  simp [deliveriesTo, List.filter_append]

/-- C5, counterexample: a subscriber connecting through the `/ws/dashboard`
endpoint (which joins `dashboard`, `notifications` and `global`) while
`e1..e5` sit in the history replays them historical-flagged — but the next
appended event `e6` is delivered to it *twice*, because
`_broadcast_activity` broadcasts every append to both the `dashboard` and
the `notifications` group and the subscriber is a member of both.  This
refutes "delivers each event appended after connect() returns exactly once —
no duplicate". -/
theorem C5_duplicate_delivery_cex :
    deliveriesTo (cmConnect (fun _ => true) (0 + 1 + 1) cmFixture "c"
        dashboardGroups).2 "c" =
      [stripHistorical (liveMsg 1), stripHistorical (liveMsg 2),
       stripHistorical (liveMsg 3), stripHistorical (liveMsg 4),
       stripHistorical (liveMsg 5)]
    ∧ deliveriesTo (broadcastActivityCM (fun _ => true) (0 + 1 + 1)
        (cmConnect (fun _ => true) (0 + 1 + 1) cmFixture "c"
          dashboardGroups).1 (liveMsg 6)).2 "c" = [liveMsg 6, liveMsg 6]
    ∧ [liveMsg 6, liveMsg 6] ≠ [liveMsg 6] := by
  decide

set_option maxHeartbeats 1600000 in
/-- C5, amended: a subscriber connecting through the `/ws/dashboard`
endpoint while `e1..e5` sit in the history and before `e6` is appended
first receives exactly `e1, e2, e3, e4, e5` — in order, each with badge and
auto-dismiss cleared, i.e. flagged historical — and then every event
appended after `connect()` returns (in particular `e6`, its live badge
untouched) is delivered to it exactly *twice*: once by the `dashboard`
broadcast and once by the `notifications` broadcast of
`_broadcast_activity`, with no gap across the replay-then-live
transition. -/
theorem C5_append_delivered_twice (e1 e2 e3 e4 e5 : WSMessage) (c : String)
    (f : Nat) (st : ConnManager) (ds ns gsm : List String)
    (hhist : st.recent_messages = [e1, e2, e3, e4, e5])
    (hdash : alistGet st.connection_groups "dashboard" = some ds)
    (hnotif : alistGet st.connection_groups "notifications" = some ns)
    (hglob : alistGet st.connection_groups "global" = some gsm)
    (hcds : ds.contains c = false)
    (hcns : ns.contains c = false)
    (hcgs : gsm.contains c = false)
    (hdslive : ∀ x ∈ ds, st.active_connections.contains x = true)
    (hnslive : ∀ x ∈ ns, st.active_connections.contains x = true)
    (hcact : st.active_connections.contains c = false)
    (hadmin : alistGet st.connection_groups "admin" = some []) :
    deliveriesTo (cmConnect (fun _ => true) (f + 1 + 1) st c dashboardGroups).2 c =
      [stripHistorical e1, stripHistorical e2, stripHistorical e3,
       stripHistorical e4, stripHistorical e5]
    ∧ (∀ d ∈ (cmConnect (fun _ => true) (f + 1 + 1) st c dashboardGroups).2,
        (d.2).badge_text = none ∧ (d.2).auto_dismiss = none)
    ∧ ∀ m : WSMessage,
        deliveriesTo (broadcastActivityCM (fun _ => true) (f + 1 + 1)
          (cmConnect (fun _ => true) (f + 1 + 1) st c dashboardGroups).1
          m).2 c = [m, m] := by
  have hconn := cmConnectDashboard_replay e1 e2 e3 e4 e5 c f st ds ns gsm
    hhist hdash hnotif hglob hcds hcns hcgs hcact hadmin
  have hcontains : (st.active_connections ++ [c]).contains c = true := by simp
  refine ⟨?_, ?_, ?_⟩
  · rw [hconn]
    exact deliveriesTo_map_self c [e1, e2, e3, e4, e5] stripHistorical
  · rw [hconn]
    intro d hd
    rcases List.mem_map.mp hd with ⟨m, _, rfl⟩
    exact ⟨rfl, rfl⟩
  · intro m
    rw [hconn]
    have hd3 : alistGet (alistSet (alistSet (alistSet st.connection_groups
        "dashboard" (ds ++ [c])) "notifications" (ns ++ [c]))
        "global" (gsm ++ [c])) "dashboard" = some (ds ++ [c]) := by
      rw [alistGet_set_ne _ _ _ _ (by decide), alistGet_set_ne _ _ _ _ (by decide)]
      exact alistGet_set_self _ _ _
    have hn3 : alistGet (alistSet (alistSet (alistSet st.connection_groups
        "dashboard" (ds ++ [c])) "notifications" (ns ++ [c]))
        "global" (gsm ++ [c])) "notifications" = some (ns ++ [c]) := by
      rw [alistGet_set_ne _ _ _ _ (by decide)]
      exact alistGet_set_self _ _ _
    have hlive1 : ∀ x ∈ ds ++ [c],
        (st.active_connections ++ [c]).contains x = true := by
      intro x hx
      rcases List.mem_append.mp hx with hx | hx
      · have : x ∈ st.active_connections := by simpa using hdslive x hx
        simp [List.mem_append, this]
      · rcases List.mem_singleton.mp hx with rfl
        exact hcontains
    have hlive2 : ∀ x ∈ ns ++ [c],
        (st.active_connections ++ [c]).contains x = true := by
      intro x hx
      rcases List.mem_append.mp hx with hx | hx
      · have : x ∈ st.active_connections := by simpa using hnslive x hx
        simp [List.mem_append, this]
      · rcases List.mem_singleton.mp hx with rfl
        exact hcontains
    have hb1 : cmBroadcastGroup (fun _ => true) (f + 1 + 1)
        (⟨st.active_connections ++ [c],
          alistSet (alistSet (alistSet st.connection_groups
              "dashboard" (ds ++ [c])) "notifications" (ns ++ [c]))
            "global" (gsm ++ [c]),
          [e1, e2, e3, e4, e5]⟩ : ConnManager) "dashboard" m [] =
        (⟨st.active_connections ++ [c],
          alistSet (alistSet (alistSet st.connection_groups
              "dashboard" (ds ++ [c])) "notifications" (ns ++ [c]))
            "global" (gsm ++ [c]),
          addToHistory [e1, e2, e3, e4, e5] m⟩,
         (ds ++ [c]).map (fun x => (x, m))) := by
      have h := cmBroadcastGroup_ok (fun _ => true) f
        (⟨st.active_connections ++ [c],
          alistSet (alistSet (alistSet st.connection_groups
              "dashboard" (ds ++ [c])) "notifications" (ns ++ [c]))
            "global" (gsm ++ [c]),
          [e1, e2, e3, e4, e5]⟩ : ConnManager) "dashboard" m
        (ds ++ [c]) hd3 (by simp) hlive1 (fun x _ => rfl)
      simpa using h
    have hb2 : cmBroadcastGroup (fun _ => true) (f + 1 + 1)
        (⟨st.active_connections ++ [c],
          alistSet (alistSet (alistSet st.connection_groups
              "dashboard" (ds ++ [c])) "notifications" (ns ++ [c]))
            "global" (gsm ++ [c]),
          addToHistory [e1, e2, e3, e4, e5] m⟩ : ConnManager)
          "notifications" m [] =
        (⟨st.active_connections ++ [c],
          alistSet (alistSet (alistSet st.connection_groups
              "dashboard" (ds ++ [c])) "notifications" (ns ++ [c]))
            "global" (gsm ++ [c]),
          addToHistory (addToHistory [e1, e2, e3, e4, e5] m) m⟩,
         (ns ++ [c]).map (fun x => (x, m))) := by
      have h := cmBroadcastGroup_ok (fun _ => true) f
        (⟨st.active_connections ++ [c],
          alistSet (alistSet (alistSet st.connection_groups
              "dashboard" (ds ++ [c])) "notifications" (ns ++ [c]))
            "global" (gsm ++ [c]),
          addToHistory [e1, e2, e3, e4, e5] m⟩ : ConnManager)
        "notifications" m
        (ns ++ [c]) hn3 (by simp) hlive2 (fun x _ => rfl)
      simpa using h
    simp only [broadcastActivityCM, hb1, hb2]
    rw [deliveriesTo_append, deliveriesTo_append_self c ds m hcds,
      deliveriesTo_append_self c ns m hcns]
    rfl

/-- C5, witness for the amended theorem: fresh manager holding `e1..e5`,
subscriber `c` on the dashboard endpoint, then one append of `e6`. -/
theorem C5_append_delivered_twice_witness :
    deliveriesTo (cmConnect (fun _ => true) (0 + 1 + 1) cmFixture "c"
        dashboardGroups).2 "c" =
      [stripHistorical (liveMsg 1), stripHistorical (liveMsg 2),
       stripHistorical (liveMsg 3), stripHistorical (liveMsg 4),
       stripHistorical (liveMsg 5)]
    ∧ deliveriesTo (broadcastActivityCM (fun _ => true) (0 + 1 + 1)
        (cmConnect (fun _ => true) (0 + 1 + 1) cmFixture "c"
          dashboardGroups).1 (liveMsg 6)).2 "c" = [liveMsg 6, liveMsg 6] := by
  have h := C5_append_delivered_twice (liveMsg 1) (liveMsg 2) (liveMsg 3)
    (liveMsg 4) (liveMsg 5) "c" 0 cmFixture [] [] [] (by decide) (by decide)
    (by decide) (by decide) (by decide) (by decide) (by decide) (by decide)
    (by decide) (by decide) (by decide)
  exact ⟨h.1, h.2.2 (liveMsg 6)⟩

end TechRadar
